import Mathlib

/-! Verification development for the terminal emulation core of BEXA3UI
(`crates/bexa-ui-core/src/widgets/terminal.rs`).

The Rust code is shallowly embedded as follows:
* `Vec<Vec<TermCell>>` becomes `List (List TermCell)`;
* machine integers (`usize`, `u16`, `u8`) become `Nat`; Rust's
  `saturating_sub` is `Nat` subtraction, and `u8` arithmetic that can wrap
  is written with an explicit `% 256`;
* every operation that can panic in Rust (slice indexing, `Vec::remove`,
  `Vec::insert`) is modelled as an `Option`-valued operation returning
  `none` exactly where the Rust code would panic;
* bytes written to the PTY write end (the DSR reply) are modelled as the
  list of bytes an operation emits.
-/

-- ── Data model ───────────────────────────────────────────────────────────

/-- An RGB triple, the embedding of `[u8; 3]`. -/
structure Rgb where
  r : Nat
  g : Nat
  b : Nat
deriving DecidableEq

/-- Embedding of `TermCell`: one grid position. -/
structure TermCell where
  ch : Char
  fg : Rgb
  bg : Option Rgb
  bold : Bool
deriving DecidableEq

/-- Embedding of `impl Default for TermCell`. -/
def TermCell.dfault : TermCell :=
  { ch := ' ', fg := ⟨204, 204, 204⟩, bg := none, bold := false }

/-- The default foreground color `[204, 204, 204]`. -/
def defaultFg : Rgb := ⟨204, 204, 204⟩

/-- Embedding of `TermGrid`.  The `pty_writer` field is not part of the
state; instead each dispatch returns the bytes it writes to the PTY. -/
structure TermGrid where
  cells : List (List TermCell)
  rows : Nat
  cols : Nat
  cursor_row : Nat
  cursor_col : Nat
  current_fg : Rgb
  current_bg : Option Rgb
  current_bold : Bool
  scroll_top : Nat
  scroll_bottom : Nat
deriving DecidableEq

/-- Embedding of `TermGrid::new`. -/
def TermGrid.new (rows cols : Nat) : TermGrid :=
  { cells := List.replicate rows (List.replicate cols TermCell.dfault)
    rows := rows
    cols := cols
    cursor_row := 0
    cursor_col := 0
    current_fg := defaultFg
    current_bg := none
    current_bold := false
    scroll_top := 0
    scroll_bottom := rows - 1 }

-- ── Vec operations with Rust panic semantics ─────────────────────────────

/-- Rust `v[i] = a` on a `Vec`: panics (here `none`) when out of bounds. -/
def vecSet (l : List α) (i : Nat) (a : α) : Option (List α) :=
  if i < l.length then some (l.set i a) else none

/-- Rust `Vec::remove(i)`: panics (here `none`) when `i ≥ len`. -/
def vecRemove (l : List α) (i : Nat) : Option (List α) :=
  if i < l.length then some (l.take i ++ l.drop (i + 1)) else none

/-- Rust `Vec::insert(i, a)`: panics (here `none`) when `i > len`. -/
def vecInsert (l : List α) (i : Nat) (a : α) : Option (List α) :=
  if i ≤ l.length then some (l.take i ++ a :: l.drop i) else none

/-- Rust `Vec::resize(n, pad)`: truncate or pad with copies of `pad`. -/
def listResize (l : List α) (n : Nat) (pad : α) : List α :=
  l.take n ++ List.replicate (n - l.length) pad

/-- Rust `self.cells[r][c] = x`: panics (here `none`) when either index is
out of bounds. -/
def setCell (cells : List (List TermCell)) (r c : Nat) (x : TermCell) :
    Option (List (List TermCell)) :=
  match cells[r]? with
  | none => none
  | some row => (vecSet row c x).map (fun row2 => cells.set r row2)

/-- A row of `cols` default cells (`vec![TermCell::default(); cols]`). -/
def blankRow (cols : Nat) : List TermCell := List.replicate cols TermCell.dfault

/-- Rust `for _ in 0..n { body }` over state threaded through `Option`. -/
def repeatM (n : Nat) (f : α → Option α) (a : α) : Option α :=
  (List.range n).foldlM (fun acc _ => f acc) a

-- ── 256-color lookup ─────────────────────────────────────────────────────

/-- Embedding of `ansi_256_to_rgb`.  The argument is a `u16` parameter
value; the `as u8` casts and `u8` arithmetic are modelled with `% 256`. -/
def ansi_256_to_rgb (n : Nat) : Rgb :=
  if n < 16 then
    match n with
    | 0 => ⟨0, 0, 0⟩
    | 1 => ⟨205, 49, 49⟩
    | 2 => ⟨13, 188, 121⟩
    | 3 => ⟨229, 229, 16⟩
    | 4 => ⟨36, 114, 200⟩
    | 5 => ⟨188, 63, 188⟩
    | 6 => ⟨17, 168, 205⟩
    | 7 => ⟨204, 204, 204⟩
    | 8 => ⟨128, 128, 128⟩
    | 9 => ⟨255, 0, 0⟩
    | 10 => ⟨0, 255, 0⟩
    | 11 => ⟨255, 255, 0⟩
    | 12 => ⟨0, 0, 255⟩
    | 13 => ⟨255, 0, 255⟩
    | 14 => ⟨0, 255, 255⟩
    | 15 => ⟨255, 255, 255⟩
    | _ => ⟨204, 204, 204⟩
  else if n < 232 then
    let idx := (n - 16) % 256
    let rd := idx / 36
    let gd := (idx % 36) / 6
    let bd := idx % 6
    let to_val := fun v => if v = 0 then 0 else (55 + 40 * v) % 256
    ⟨to_val rd, to_val gd, to_val bd⟩
  else
    let v := (8 + (10 * ((n - 232) % 256)) % 256) % 256
    ⟨v, v, v⟩

-- ── SGR ──────────────────────────────────────────────────────────────────

/-- The SGR reset action (`code 0`, also empty `CSI m`). -/
def TermGrid.sgr_reset (g : TermGrid) : TermGrid :=
  { g with current_fg := defaultFg, current_bg := none, current_bold := false }

/-- Embedding of `TermGrid::apply_sgr`, walking the flat parameter list
left to right exactly as the Rust `loop` over `params.iter()` does. -/
def TermGrid.apply_sgr (g : TermGrid) : List Nat → TermGrid
  | [] => g
  | p :: rest =>
    if p = 0 then apply_sgr g.sgr_reset rest
    else if p = 1 then apply_sgr { g with current_bold := true } rest
    else if p = 22 then apply_sgr { g with current_bold := false } rest
    else if p = 30 then apply_sgr { g with current_fg := ⟨0, 0, 0⟩ } rest
    else if p = 31 then apply_sgr { g with current_fg := ⟨205, 49, 49⟩ } rest
    else if p = 32 then apply_sgr { g with current_fg := ⟨13, 188, 121⟩ } rest
    else if p = 33 then apply_sgr { g with current_fg := ⟨229, 229, 16⟩ } rest
    else if p = 34 then apply_sgr { g with current_fg := ⟨36, 114, 200⟩ } rest
    else if p = 35 then apply_sgr { g with current_fg := ⟨188, 63, 188⟩ } rest
    else if p = 36 then apply_sgr { g with current_fg := ⟨17, 168, 205⟩ } rest
    else if p = 37 then apply_sgr { g with current_fg := ⟨204, 204, 204⟩ } rest
    else if p = 39 then apply_sgr { g with current_fg := ⟨204, 204, 204⟩ } rest
    else if p = 40 then apply_sgr { g with current_bg := some ⟨0, 0, 0⟩ } rest
    else if p = 41 then apply_sgr { g with current_bg := some ⟨205, 49, 49⟩ } rest
    else if p = 42 then apply_sgr { g with current_bg := some ⟨13, 188, 121⟩ } rest
    else if p = 43 then apply_sgr { g with current_bg := some ⟨229, 229, 16⟩ } rest
    else if p = 44 then apply_sgr { g with current_bg := some ⟨36, 114, 200⟩ } rest
    else if p = 45 then apply_sgr { g with current_bg := some ⟨188, 63, 188⟩ } rest
    else if p = 46 then apply_sgr { g with current_bg := some ⟨17, 168, 205⟩ } rest
    else if p = 47 then apply_sgr { g with current_bg := some ⟨204, 204, 204⟩ } rest
    else if p = 49 then apply_sgr { g with current_bg := none } rest
    else if p = 90 then apply_sgr { g with current_fg := ⟨128, 128, 128⟩ } rest
    else if p = 91 then apply_sgr { g with current_fg := ⟨255, 0, 0⟩ } rest
    else if p = 92 then apply_sgr { g with current_fg := ⟨0, 255, 0⟩ } rest
    else if p = 93 then apply_sgr { g with current_fg := ⟨255, 255, 0⟩ } rest
    else if p = 94 then apply_sgr { g with current_fg := ⟨0, 0, 255⟩ } rest
    else if p = 95 then apply_sgr { g with current_fg := ⟨255, 0, 255⟩ } rest
    else if p = 96 then apply_sgr { g with current_fg := ⟨0, 255, 255⟩ } rest
    else if p = 97 then apply_sgr { g with current_fg := ⟨255, 255, 255⟩ } rest
    else if p = 38 then
      match rest with
      | [] => g
      | five :: rest2 =>
        if five = 5 then
          match rest2 with
          | [] => g
          | n :: rest3 => apply_sgr { g with current_fg := ansi_256_to_rgb n } rest3
        else apply_sgr g rest2
    else if p = 48 then
      match rest with
      | [] => g
      | five :: rest2 =>
        if five = 5 then
          match rest2 with
          | [] => g
          | n :: rest3 => apply_sgr { g with current_bg := some (ansi_256_to_rgb n) } rest3
        else apply_sgr g rest2
    else apply_sgr g rest

-- ── Grid operations ──────────────────────────────────────────────────────

/-- Embedding of `TermGrid::resize`. -/
def TermGrid.resize (g : TermGrid) (rows cols : Nat) : TermGrid :=
  { g with
    rows := rows
    cols := cols
    cells := (listResize g.cells rows (blankRow cols)).map
      (fun row => listResize row cols TermCell.dfault)
    cursor_row := min g.cursor_row (rows - 1)
    cursor_col := min g.cursor_col (cols - 1)
    scroll_top := 0
    scroll_bottom := rows - 1 }

/-- Embedding of `TermGrid::scroll_up`. -/
def TermGrid.scroll_up (g : TermGrid) : Option TermGrid :=
  if g.scroll_top < g.scroll_bottom ∧ g.scroll_bottom < g.rows then do
    let cs ← vecRemove g.cells g.scroll_top
    let cs ← vecInsert cs g.scroll_bottom (blankRow g.cols)
    some { g with cells := cs }
  else some g

/-- Embedding of `TermGrid::newline`. -/
def TermGrid.newline (g : TermGrid) : Option TermGrid :=
  if g.cursor_row = g.scroll_bottom then g.scroll_up
  else if g.cursor_row + 1 < g.rows then some { g with cursor_row := g.cursor_row + 1 }
  else some g

/-- One erase loop over the columns `colIdxs` of row `r`, each write
carrying Rust's indexing-panic semantics. -/
def eraseRun (cells : List (List TermCell)) (r : Nat) (colIdxs : List Nat) :
    Option (List (List TermCell)) :=
  colIdxs.foldlM (fun acc c => setCell acc r c TermCell.dfault) cells

/-- Embedding of `TermGrid::erase_in_display`. -/
def TermGrid.erase_in_display (g : TermGrid) (mode : Nat) : Option TermGrid :=
  if mode = 0 then do
    let cs ← eraseRun g.cells g.cursor_row (List.range' g.cursor_col (g.cols - g.cursor_col))
    let cs ← (List.range' (g.cursor_row + 1) (g.rows - (g.cursor_row + 1))).foldlM
      (fun acc r => eraseRun acc r (List.range g.cols)) cs
    some { g with cells := cs }
  else if mode = 1 then do
    let cs ← (List.range g.cursor_row).foldlM
      (fun acc r => eraseRun acc r (List.range g.cols)) g.cells
    let cs ← eraseRun cs g.cursor_row (List.range (min g.cursor_col (g.cols - 1) + 1))
    some { g with cells := cs }
  else if mode = 2 ∨ mode = 3 then
    some { g with cells := g.cells.map (fun row => row.map (fun _ => TermCell.dfault)) }
  else some g

/-- Embedding of `TermGrid::erase_in_line`. -/
def TermGrid.erase_in_line (g : TermGrid) (mode : Nat) : Option TermGrid :=
  if mode = 0 then do
    let cs ← eraseRun g.cells g.cursor_row (List.range' g.cursor_col (g.cols - g.cursor_col))
    some { g with cells := cs }
  else if mode = 1 then do
    let cs ← eraseRun g.cells g.cursor_row (List.range (min g.cursor_col (g.cols - 1) + 1))
    some { g with cells := cs }
  else if mode = 2 then do
    let cs ← eraseRun g.cells g.cursor_row (List.range g.cols)
    some { g with cells := cs }
  else some g

/-- Embedding of `vte::Perform::print` for `TermGrid`. -/
def TermGrid.print (g : TermGrid) (c : Char) : Option TermGrid := do
  let g ← if g.cols ≤ g.cursor_col then TermGrid.newline { g with cursor_col := 0 } else some g
  if g.cursor_row < g.rows ∧ g.cursor_col < g.cols then do
    let cs ← setCell g.cells g.cursor_row g.cursor_col
      { ch := c, fg := g.current_fg, bg := g.current_bg, bold := g.current_bold }
    some { g with cells := cs, cursor_col := g.cursor_col + 1 }
  else some g

/-- Embedding of `vte::Perform::execute` for `TermGrid` (LF, CR, BS, BEL,
TAB; every other control byte is ignored). -/
def TermGrid.execute (g : TermGrid) (byte : Nat) : Option TermGrid :=
  if byte = 10 then g.newline
  else if byte = 13 then some { g with cursor_col := 0 }
  else if byte = 8 then some { g with cursor_col := g.cursor_col - 1 }
  else if byte = 7 then some g
  else if byte = 9 then
    let c := (g.cursor_col / 8 + 1) * 8
    some { g with cursor_col := if g.cols ≤ c then g.cols - 1 else c }
  else some g

/-- Embedding of the parameter accessor closure `p` in `csi_dispatch`:
parameter `idx` with default `dflt`; a missing or zero parameter yields the
default. -/
def getParam (params : List Nat) (idx dflt : Nat) : Nat :=
  match params[idx]? with
  | some v => if v = 0 then dflt else v
  | none => dflt

/-- The CPR reply string `format!("\x1b[{};{}R", row + 1, col + 1)`. -/
def TermGrid.dsr_response (g : TermGrid) : String :=
  ("\x1b[") ++ toString (g.cursor_row + 1) ++ (";") ++ toString (g.cursor_col + 1) ++ ("R")

/-- UTF-8 encoding of one scalar value (Rust `char::encode_utf8`). -/
def utf8Char (c : Char) : List Nat :=
  let n := c.toNat
  if n < 128 then [n]
  else if n < 2048 then [192 + n / 64, 128 + n % 64]
  else if n < 65536 then [224 + n / 4096, 128 + (n / 64) % 64, 128 + n % 64]
  else [240 + n / 262144, 128 + (n / 4096) % 64, 128 + (n / 64) % 64, 128 + n % 64]

/-- UTF-8 bytes of a string (Rust `str::as_bytes`). -/
def utf8 (s : String) : List Nat := (s.toList.map utf8Char).flatten

/-- Embedding of `vte::Perform::csi_dispatch` for `TermGrid`.  `interQ`
says whether the intermediates contain `b'?'`.  The second component of
the result is the byte sequence written to the PTY write end. -/
def TermGrid.csi_dispatch (g : TermGrid) (params : List Nat) (interQ : Bool)
    (action : Char) : Option (TermGrid × List Nat) :=
  if interQ then some (g, []) else
  if action = 'A' then
    some ({ g with cursor_row := g.cursor_row - getParam params 0 1 }, [])
  else if action = 'B' then
    some ({ g with cursor_row := min (g.cursor_row + getParam params 0 1) (g.rows - 1) }, [])
  else if action = 'C' then
    some ({ g with cursor_col := min (g.cursor_col + getParam params 0 1) (g.cols - 1) }, [])
  else if action = 'D' then
    some ({ g with cursor_col := g.cursor_col - getParam params 0 1 }, [])
  else if action = 'H' ∨ action = 'f' then
    some ({ g with cursor_row := min (getParam params 0 1 - 1) (g.rows - 1),
                   cursor_col := min (getParam params 1 1 - 1) (g.cols - 1) }, [])
  else if action = 'J' then
    (g.erase_in_display (getParam params 0 0)).map (fun g2 => (g2, []))
  else if action = 'K' then
    (g.erase_in_line (getParam params 0 0)).map (fun g2 => (g2, []))
  else if action = 'm' then
    if params.length = 0 then some (g.sgr_reset, [])
    else some (g.apply_sgr params, [])
  else if action = 'r' then
    some ({ g with scroll_top := min (getParam params 0 1 - 1) (g.rows - 1),
                   scroll_bottom := min (getParam params 1 g.rows - 1) (g.rows - 1) }, [])
  else if action = 'L' then
    (repeatM (getParam params 0 1) (fun cs =>
      if g.cursor_row ≤ g.scroll_bottom ∧ g.scroll_bottom < g.rows then do
        let cs ← if g.scroll_bottom < cs.length then vecRemove cs g.scroll_bottom else some cs
        vecInsert cs g.cursor_row (blankRow g.cols)
      else some cs) g.cells).map (fun cs => ({ g with cells := cs }, []))
  else if action = 'M' then
    (repeatM (getParam params 0 1) (fun cs =>
      if g.cursor_row < cs.length then do
        let cs ← vecRemove cs g.cursor_row
        vecInsert cs (min g.scroll_bottom cs.length) (blankRow g.cols)
      else some cs) g.cells).map (fun cs => ({ g with cells := cs }, []))
  else if action = 'P' then
    (repeatM (getParam params 0 1) (fun cs =>
      match cs[g.cursor_row]? with
      | none => none
      | some row =>
        if g.cursor_col < row.length then do
          let row2 ← vecRemove row g.cursor_col
          some (cs.set g.cursor_row (row2 ++ [TermCell.dfault]))
        else some cs) g.cells).map (fun cs => ({ g with cells := cs }, []))
  else if action = '@' then
    (repeatM (getParam params 0 1) (fun cs =>
      match cs[g.cursor_row]? with
      | none => none
      | some row => do
        let row2 ← vecInsert row g.cursor_col TermCell.dfault
        some (cs.set g.cursor_row (row2.take g.cols))) g.cells).map
      (fun cs => ({ g with cells := cs }, []))
  else if action = 'n' then
    if getParam params 0 0 = 6 then some (g, utf8 g.dsr_response) else some (g, [])
  else if action = 'd' then
    some ({ g with cursor_row := min (getParam params 0 1 - 1) (g.rows - 1) }, [])
  else if action = 'G' then
    some ({ g with cursor_col := min (getParam params 0 1 - 1) (g.cols - 1) }, [])
  else some (g, [])

/-- Embedding of `vte::Perform::esc_dispatch` for `TermGrid` (only
`ESC M`, reverse index, does anything). -/
def TermGrid.esc_dispatch (g : TermGrid) (byte : Nat) : Option TermGrid :=
  if byte = 77 then
    if g.cursor_row = g.scroll_top then do
      let cs ← if g.scroll_bottom < g.cells.length then vecRemove g.cells g.scroll_bottom
               else some g.cells
      let cs ← vecInsert cs g.scroll_top (blankRow g.cols)
      some { g with cells := cs }
    else some { g with cursor_row := g.cursor_row - 1 }
  else some g

-- ── Events ───────────────────────────────────────────────────────────────

/-- The typed events the vte parser feeds into the grid.  `strEvent`
stands for the hook/put/unhook/osc callbacks, which are all no-ops. -/
inductive TermEvent where
  | print (c : Char)
  | execute (byte : Nat)
  | csi (params : List Nat) (interQ : Bool) (action : Char)
  | esc (byte : Nat)
  | strEvent
deriving DecidableEq

/-- Apply one parsed event; the second component is the bytes written back
to the PTY (non-empty only for a DSR query). -/
def applyEvent (g : TermGrid) : TermEvent → Option (TermGrid × List Nat)
  | .print c => (g.print c).map (fun g2 => (g2, []))
  | .execute b => (g.execute b).map (fun g2 => (g2, []))
  | .csi params interQ action => g.csi_dispatch params interQ action
  | .esc b => (g.esc_dispatch b).map (fun g2 => (g2, []))
  | .strEvent => some (g, [])

/-- Apply a list of parsed events in order, concatenating the PTY output. -/
def applyEvents (g : TermGrid) : List TermEvent → Option (TermGrid × List Nat)
  | [] => some (g, [])
  | e :: es => do
    let (g1, out1) ← applyEvent g e
    let (g2, out2) ← applyEvents g1 es
    some (g2, out1 ++ out2)

-- ── Well-formedness ──────────────────────────────────────────────────────

/-- The cell matrix has exactly `rows` rows of exactly `cols` cells. -/
def Shape (cells : List (List TermCell)) (rows cols : Nat) : Prop :=
  cells.length = rows ∧ ∀ row ∈ cells, row.length = cols

/-- The grid well-formedness invariant: positive dimensions, the shape
invariant, cursor in bounds (`cursor_col = cols` only transiently), and
both scroll bounds individually inside the grid. -/
def WF (g : TermGrid) : Prop :=
  0 < g.rows ∧ 0 < g.cols ∧ Shape g.cells g.rows g.cols ∧
  g.cursor_row < g.rows ∧ g.cursor_col ≤ g.cols ∧
  g.scroll_top < g.rows ∧ g.scroll_bottom < g.rows

instance (g : TermGrid) : Decidable (WF g) := by
  unfold WF Shape
  infer_instance

/-- The cell stored at 0-based position `(i, j)`, when present. -/
def cellAt (g : TermGrid) (i j : Nat) : Option TermCell :=
  (g.cells[i]?).bind (fun row => row[j]?)

-- ── Keyboard encoding ────────────────────────────────────────────────────

/-- The modifier state of `winit::keyboard::ModifiersState`; the terminal
widget only ever reads `control`. -/
structure Modifiers where
  shift : Bool
  control : Bool
  alt : Bool
  superKey : Bool
deriving DecidableEq

/-- The logical keys distinguished by `Terminal::handle_key_event`;
`otherKey` stands for every named key the widget does not handle. -/
inductive TermKey where
  | enter
  | backspace
  | tab
  | escape
  | arrowUp
  | arrowDown
  | arrowRight
  | arrowLeft
  | home
  | endKey
  | delete
  | pageUp
  | pageDown
  | character (s : String)
  | otherKey
deriving DecidableEq

/-- The Ctrl+letter branch of `handle_key_event`: first character of the
key string, mapped to a control byte when it is an ASCII letter. -/
def ctrlLetterBytes (s : String) : Option (List Nat) :=
  let ch := s.toList.headD (Char.ofNat 0)
  if 'a' ≤ ch ∧ ch ≤ 'z' then some [ch.toNat - 'a'.toNat + 1]
  else if 'A' ≤ ch ∧ ch ≤ 'Z' then some [ch.toNat - 'A'.toNat + 1]
  else none

/-- The fall-through key map of `handle_key_event` (the bottom `match`). -/
def keyBytes : TermKey → Option (List Nat)
  | .enter => some [13]
  | .backspace => some [127]
  | .tab => some [9]
  | .escape => some [27]
  | .arrowUp => some [27, 91, 65]
  | .arrowDown => some [27, 91, 66]
  | .arrowRight => some [27, 91, 67]
  | .arrowLeft => some [27, 91, 68]
  | .home => some [27, 91, 72]
  | .endKey => some [27, 91, 70]
  | .delete => some [27, 91, 51, 126]
  | .pageUp => some [27, 91, 53, 126]
  | .pageDown => some [27, 91, 54, 126]
  | .character s => some (utf8 s)
  | .otherKey => none

/-- Embedding of `Terminal::handle_key_event` for a pressed key: `some`
gives the bytes written to the PTY; `none` means the event is unhandled. -/
def handle_key_event (key : TermKey) (m : Modifiers) : Option (List Nat) :=
  if m.control then
    match key with
    | .character s =>
      match ctrlLetterBytes s with
      | some bs => some bs
      | none => keyBytes key
    | _ => keyBytes key
  else keyBytes key

-- ── Helper lemmas: partial folds and shape preservation ──────────────────

theorem foldlM_some {α β : Type} (P : α → Prop) (f : α → β → Option α) :
    ∀ (l : List β) (a : α), P a →
      (∀ a2 b, P a2 → b ∈ l → ∃ a3, f a2 b = some a3 ∧ P a3) →
      ∃ a4, l.foldlM f a = some a4 ∧ P a4
  | [], a, ha, _ => ⟨a, rfl, ha⟩
  | b :: l, a, ha, hf => by
    obtain ⟨a2, hfa, ha2⟩ := hf a b ha (List.mem_cons_self b l)
    obtain ⟨a4, hfold, ha4⟩ := foldlM_some P f l a2 ha2
      (fun a3 b2 h3 hb => hf a3 b2 h3 (List.mem_cons_of_mem _ hb))
    exact ⟨a4, by simp [List.foldlM_cons, hfa, hfold], ha4⟩

theorem repeatM_some {α : Type} (P : α → Prop) (f : α → Option α) (n : Nat) (a : α)
    (ha : P a) (hf : ∀ a2, P a2 → ∃ a3, f a2 = some a3 ∧ P a3) :
    ∃ a4, repeatM n f a = some a4 ∧ P a4 :=
  foldlM_some P _ (List.range n) a ha (fun a2 _ h2 _ => hf a2 h2)

theorem vecSet_some {α : Type} {l : List α} {i : Nat} (h : i < l.length) (a : α) :
    vecSet l i a = some (l.set i a) := by
  simp [vecSet, h]

theorem vecRemove_some {α : Type} {l : List α} {i : Nat} (h : i < l.length) :
    vecRemove l i = some (l.take i ++ l.drop (i + 1)) := by
  simp [vecRemove, h]

theorem vecInsert_some {α : Type} {l : List α} {i : Nat} (h : i ≤ l.length) (a : α) :
    vecInsert l i a = some (l.take i ++ a :: l.drop i) := by
  simp [vecInsert, h]

theorem removed_length {α : Type} {l : List α} {i : Nat} (h : i < l.length) :
    (l.take i ++ l.drop (i + 1)).length = l.length - 1 := by
  simp only [List.length_append, List.length_take, List.length_drop]
  omega

theorem inserted_length {α : Type} (l : List α) (i : Nat) (a : α) :
    (l.take i ++ a :: l.drop i).length = min i l.length + (l.length - i) + 1 := by
  simp only [List.length_append, List.length_take, List.length_cons, List.length_drop]
  omega

theorem mem_removed {α : Type} {l : List α} {i : Nat} {x : α}
    (hx : x ∈ l.take i ++ l.drop (i + 1)) : x ∈ l := by
  rcases List.mem_append.mp hx with h | h
  · exact List.take_subset _ _ h
  · exact List.drop_subset _ _ h

theorem mem_inserted {α : Type} {l : List α} {i : Nat} {a x : α}
    (hx : x ∈ l.take i ++ a :: l.drop i) : x = a ∨ x ∈ l := by
  rcases List.mem_append.mp hx with h | h
  · exact Or.inr (List.take_subset _ _ h)
  · rcases List.mem_cons.mp h with h | h
    · exact Or.inl h
    · exact Or.inr (List.drop_subset _ _ h)

theorem Shape.rowAt {cells : List (List TermCell)} {rows cols : Nat}
    (h : Shape cells rows cols) {r : Nat} (hr : r < rows) :
    ∃ row, cells[r]? = some row ∧ row.length = cols := by
  have hr2 : r < cells.length := by rw [h.1]; exact hr
  exact ⟨cells[r], List.getElem?_eq_getElem hr2,
    h.2 _ (List.getElem?_mem (List.getElem?_eq_getElem hr2))⟩

theorem Shape.set {cells : List (List TermCell)} {rows cols : Nat}
    (h : Shape cells rows cols) (r : Nat) {row : List TermCell}
    (hrow : row.length = cols) : Shape (cells.set r row) rows cols := by
  refine ⟨by simp [h.1], ?_⟩
  intro row2 hmem
  rcases List.mem_or_eq_of_mem_set hmem with h2 | h2
  · exact h.2 _ h2
  · rw [h2]; exact hrow

theorem blankRow_length (cols : Nat) : (blankRow cols).length = cols := by
  simp [blankRow]

theorem setCell_shape {cells : List (List TermCell)} {rows cols : Nat}
    (h : Shape cells rows cols) {r c : Nat} (hr : r < rows) (hc : c < cols) (x : TermCell) :
    ∃ cs, setCell cells r c x = some cs ∧ Shape cs rows cols := by
  obtain ⟨row, hrow, hlen⟩ := h.rowAt hr
  refine ⟨cells.set r (row.set c x), ?_, h.set r (by simp [hlen])⟩
  simp [setCell, hrow, vecSet_some (show c < row.length by rw [hlen]; exact hc)]

theorem eraseRun_shape {cells : List (List TermCell)} {rows cols : Nat}
    (h : Shape cells rows cols) {r : Nat} (hr : r < rows) {colIdxs : List Nat}
    (hcols : ∀ c ∈ colIdxs, c < cols) :
    ∃ cs, eraseRun cells r colIdxs = some cs ∧ Shape cs rows cols :=
  foldlM_some (fun cs => Shape cs rows cols) _ colIdxs cells h
    (fun cs c h2 hcmem => setCell_shape h2 hr (hcols c hcmem) _)

theorem removeInsert_shape {cells : List (List TermCell)} {rows cols : Nat}
    (h : Shape cells rows cols) {i j : Nat} (hi : i < rows) (hj : j + 1 ≤ rows)
    {row : List TermCell} (hrow : row.length = cols) :
    ∃ cs, (vecRemove cells i).bind (fun cs2 => vecInsert cs2 j row) = some cs ∧
      Shape cs rows cols := by
  have hi2 : i < cells.length := by rw [h.1]; exact hi
  have hlen1 : (cells.take i ++ cells.drop (i + 1)).length = rows - 1 := by
    rw [removed_length hi2, h.1]
  refine ⟨_, by rw [vecRemove_some hi2, Option.some_bind,
      vecInsert_some (show j ≤ _ by rw [hlen1]; omega) row], ?_, ?_⟩
  · rw [inserted_length, hlen1]; omega
  · intro row2 hmem
    rcases mem_inserted hmem with h2 | h2
    · rw [h2]; exact hrow
    · exact h.2 _ (mem_removed h2)

-- ── Per-operation well-formedness lemmas ─────────────────────────────────

theorem scroll_up_spec (g : TermGrid) (hsh : Shape g.cells g.rows g.cols)
    (hsb : g.scroll_bottom < g.rows) :
    ∃ cs, g.scroll_up = some { g with cells := cs } ∧ Shape cs g.rows g.cols := by
  unfold TermGrid.scroll_up
  split_ifs with h
  · obtain ⟨cs, heq, hs⟩ := @removeInsert_shape _ _ _ hsh g.scroll_top g.scroll_bottom
      (by omega) (by omega) _ (blankRow_length g.cols)
    obtain ⟨l1, hl1, hl2⟩ := Option.bind_eq_some.mp heq
    exact ⟨cs, by rw [hl1]; simp [hl2], hs⟩
  · exact ⟨g.cells, rfl, hsh⟩

theorem newline_spec (g : TermGrid) (hwf : WF g) :
    ∃ cs r, g.newline = some { g with cells := cs, cursor_row := r } ∧
      Shape cs g.rows g.cols ∧ r < g.rows ∧
      (g.cursor_row = g.scroll_bottom → r = g.cursor_row) ∧
      (g.cursor_row ≠ g.scroll_bottom → g.cursor_row + 1 < g.rows → r = g.cursor_row + 1) := by
  obtain ⟨hrows, hcols, hsh, hcr, hcc, hst, hsb⟩ := hwf
  unfold TermGrid.newline
  split_ifs with h1 h2
  · obtain ⟨cs, heq, hs⟩ := scroll_up_spec g hsh hsb
    exact ⟨cs, g.cursor_row, heq, hs, hcr, fun _ => rfl, fun hne => absurd h1 hne⟩
  · exact ⟨g.cells, g.cursor_row + 1, rfl, hsh, h2, fun he => absurd he h1, fun _ _ => rfl⟩
  · exact ⟨g.cells, g.cursor_row, rfl, hsh, hcr, fun he => absurd he h1, fun _ h => absurd h h2⟩

theorem erase_in_display_spec (g : TermGrid) (mode : Nat) (hwf : WF g) :
    ∃ cs, g.erase_in_display mode = some { g with cells := cs } ∧ Shape cs g.rows g.cols := by
  obtain ⟨hrows, hcols, hsh, hcr, hcc, hst, hsb⟩ := hwf
  unfold TermGrid.erase_in_display
  split_ifs with h0 h1 h23
  · obtain ⟨cs1, he1, hs1⟩ := @eraseRun_shape _ _ _ hsh _ hcr (List.range' g.cursor_col (g.cols - g.cursor_col))
      (by intro c hc; have := List.mem_range'_1.mp hc; omega)
    obtain ⟨cs2, he2, hs2⟩ := foldlM_some (fun cs => Shape cs g.rows g.cols)
      (fun acc r => eraseRun acc r (List.range g.cols))
      (List.range' (g.cursor_row + 1) (g.rows - (g.cursor_row + 1))) cs1 hs1
      (fun acc r hacc hr => eraseRun_shape hacc
        (by have := List.mem_range'_1.mp hr; omega)
        (by intro c hc; exact List.mem_range.mp hc))
    exact ⟨cs2, by rw [he1]; simp [he2], hs2⟩
  · obtain ⟨cs1, he1, hs1⟩ := foldlM_some (fun cs => Shape cs g.rows g.cols)
      (fun acc r => eraseRun acc r (List.range g.cols))
      (List.range g.cursor_row) g.cells hsh
      (fun acc r hacc hr => eraseRun_shape hacc
        (by have := List.mem_range.mp hr; omega)
        (by intro c hc; exact List.mem_range.mp hc))
    obtain ⟨cs2, he2, hs2⟩ := @eraseRun_shape _ _ _ hs1 _ hcr (List.range (min g.cursor_col (g.cols - 1) + 1))
      (by intro c hc; have := List.mem_range.mp hc; omega)
    exact ⟨cs2, by rw [he1]; simp [he2], hs2⟩
  · refine ⟨_, rfl, by simp [Shape, hsh.1], ?_⟩
    intro row hrow
    obtain ⟨row0, hmem, hmap⟩ := List.mem_map.mp hrow
    rw [← hmap]
    simp [hsh.2 row0 hmem]
  · exact ⟨g.cells, rfl, hsh⟩

theorem erase_in_line_spec (g : TermGrid) (mode : Nat) (hwf : WF g) :
    ∃ cs, g.erase_in_line mode = some { g with cells := cs } ∧ Shape cs g.rows g.cols := by
  obtain ⟨hrows, hcols, hsh, hcr, hcc, hst, hsb⟩ := hwf
  unfold TermGrid.erase_in_line
  split_ifs with h0 h1 h2
  · obtain ⟨cs1, he1, hs1⟩ := @eraseRun_shape _ _ _ hsh _ hcr (List.range' g.cursor_col (g.cols - g.cursor_col))
      (by intro c hc; have := List.mem_range'_1.mp hc; omega)
    exact ⟨cs1, by rw [he1]; simp, hs1⟩
  · obtain ⟨cs1, he1, hs1⟩ := @eraseRun_shape _ _ _ hsh _ hcr (List.range (min g.cursor_col (g.cols - 1) + 1))
      (by intro c hc; have := List.mem_range.mp hc; omega)
    exact ⟨cs1, by rw [he1]; simp, hs1⟩
  · obtain ⟨cs1, he1, hs1⟩ := @eraseRun_shape _ _ _ hsh _ hcr (List.range g.cols)
      (by intro c hc; exact List.mem_range.mp hc)
    exact ⟨cs1, by rw [he1]; simp, hs1⟩
  · exact ⟨g.cells, rfl, hsh⟩

theorem print_spec (g : TermGrid) (c : Char) (hwf : WF g) :
    ∃ g2, g.print c = some g2 ∧ WF g2 ∧ g2.rows = g.rows ∧ g2.cols = g.cols ∧
      (g.cursor_col < g.cols → g2.cursor_col = g.cursor_col + 1) := by
  obtain ⟨hrows, hcols, hsh, hcr, hcc, hst, hsb⟩ := hwf
  unfold TermGrid.print
  split_ifs with hwrap
  · obtain ⟨cs, r, hnl, hs, hrlt, _, _⟩ :=
      newline_spec { g with cursor_col := 0 }
        ⟨hrows, hcols, hsh, hcr, Nat.zero_le _, hst, hsb⟩
    obtain ⟨cs2, hset, hs2⟩ := setCell_shape hs hrlt hcols
      { ch := c, fg := g.current_fg, bg := g.current_bg, bold := g.current_bold }
    refine ⟨{ g with cells := cs2, cursor_row := r, cursor_col := 1 }, ?_,
      ⟨hrows, hcols, hs2, hrlt, hcols, hst, hsb⟩, rfl, rfl, fun h => absurd h (by omega)⟩
    rw [hnl]
    simp [hrlt, hcols, hset]
  · have hlt : g.cursor_col < g.cols := by omega
    obtain ⟨cs2, hset, hs2⟩ := setCell_shape hsh hcr hlt
      { ch := c, fg := g.current_fg, bg := g.current_bg, bold := g.current_bold }
    refine ⟨{ g with cells := cs2, cursor_col := g.cursor_col + 1 }, ?_,
      ⟨hrows, hcols, hs2, hcr, show g.cursor_col + 1 ≤ g.cols by omega, hst, hsb⟩,
      rfl, rfl, fun _ => rfl⟩
    simp [hcr, hlt, hset]

theorem execute_spec (g : TermGrid) (b : Nat) (hwf : WF g) :
    ∃ g2, g.execute b = some g2 ∧ WF g2 ∧ g2.rows = g.rows ∧ g2.cols = g.cols ∧
      (g2.cursor_col ≤ g.cursor_col ∨ g2.cursor_col < g2.cols) := by
  obtain ⟨hrows, hcols, hsh, hcr, hcc, hst, hsb⟩ := hwf
  unfold TermGrid.execute
  split_ifs with h10 h13 h8 h7 h9
  · obtain ⟨cs, r, hnl, hs, hrlt, _, _⟩ :=
      newline_spec g ⟨hrows, hcols, hsh, hcr, hcc, hst, hsb⟩
    exact ⟨_, hnl, ⟨hrows, hcols, hs, hrlt, hcc, hst, hsb⟩, rfl, rfl, Or.inl (le_refl _)⟩
  · exact ⟨{ g with cursor_col := 0 }, rfl,
      ⟨hrows, hcols, hsh, hcr, Nat.zero_le _, hst, hsb⟩, rfl, rfl, Or.inl (Nat.zero_le _)⟩
  · exact ⟨{ g with cursor_col := g.cursor_col - 1 }, rfl,
      ⟨hrows, hcols, hsh, hcr, show g.cursor_col - 1 ≤ g.cols by omega, hst, hsb⟩, rfl, rfl,
      Or.inl (show g.cursor_col - 1 ≤ g.cursor_col by omega)⟩
  · exact ⟨g, rfl, ⟨hrows, hcols, hsh, hcr, hcc, hst, hsb⟩, rfl, rfl, Or.inl (le_refl _)⟩
  · refine ⟨_, rfl, ⟨hrows, hcols, hsh, hcr, ?_, hst, hsb⟩, rfl, rfl, Or.inr ?_⟩
    · show (if g.cols ≤ (g.cursor_col / 8 + 1) * 8 then g.cols - 1
        else (g.cursor_col / 8 + 1) * 8) ≤ g.cols
      split_ifs <;> omega
    · show (if g.cols ≤ (g.cursor_col / 8 + 1) * 8 then g.cols - 1
        else (g.cursor_col / 8 + 1) * 8) < g.cols
      split_ifs <;> omega
  · exact ⟨g, rfl, ⟨hrows, hcols, hsh, hcr, hcc, hst, hsb⟩, rfl, rfl, Or.inl (le_refl _)⟩

theorem apply_sgr_frame (g : TermGrid) (ps : List Nat) :
    (g.apply_sgr ps).cells = g.cells ∧ (g.apply_sgr ps).rows = g.rows ∧
    (g.apply_sgr ps).cols = g.cols ∧ (g.apply_sgr ps).cursor_row = g.cursor_row ∧
    (g.apply_sgr ps).cursor_col = g.cursor_col ∧
    (g.apply_sgr ps).scroll_top = g.scroll_top ∧
    (g.apply_sgr ps).scroll_bottom = g.scroll_bottom := by
  induction g, ps using TermGrid.apply_sgr.induct <;>
    rw [TermGrid.apply_sgr.eq_def] <;>
    simp_all [TermGrid.sgr_reset]

theorem insertLines_ok (g : TermGrid) (n : Nat) (hsh : Shape g.cells g.rows g.cols) :
    ∃ cs, repeatM n (fun cs =>
      if g.cursor_row ≤ g.scroll_bottom ∧ g.scroll_bottom < g.rows then do
        let cs ← if g.scroll_bottom < cs.length then vecRemove cs g.scroll_bottom else some cs
        vecInsert cs g.cursor_row (blankRow g.cols)
      else some cs) g.cells = some cs ∧ Shape cs g.rows g.cols := by
  apply repeatM_some (fun cs => Shape cs g.rows g.cols) _ n g.cells hsh
  intro cs hs
  split_ifs with hg hrem
  · rw [vecRemove_some hrem]
    simp only [Option.bind_eq_bind, Option.some_bind]
    have hlen : (cs.take g.scroll_bottom ++ cs.drop (g.scroll_bottom + 1)).length =
        g.rows - 1 := by rw [removed_length hrem, hs.1]
    rw [vecInsert_some (show g.cursor_row ≤ _ by rw [hlen]; omega) (blankRow g.cols)]
    refine ⟨_, rfl, ?_, ?_⟩
    · rw [inserted_length, hlen]; omega
    · intro row hrow
      rcases mem_inserted hrow with h | h
      · rw [h]; exact blankRow_length g.cols
      · exact hs.2 _ (mem_removed h)
  · exact absurd (show g.scroll_bottom < cs.length by rw [hs.1]; omega) hrem
  · exact ⟨cs, rfl, hs⟩

theorem deleteLines_ok (g : TermGrid) (n : Nat) (hsh : Shape g.cells g.rows g.cols) :
    ∃ cs, repeatM n (fun cs =>
      if g.cursor_row < cs.length then do
        let cs ← vecRemove cs g.cursor_row
        vecInsert cs (min g.scroll_bottom cs.length) (blankRow g.cols)
      else some cs) g.cells = some cs ∧ Shape cs g.rows g.cols := by
  apply repeatM_some (fun cs => Shape cs g.rows g.cols) _ n g.cells hsh
  intro cs hs
  split_ifs with hg
  · rw [vecRemove_some hg]
    simp only [Option.bind_eq_bind, Option.some_bind]
    rw [vecInsert_some (Nat.min_le_right _ _) (blankRow g.cols)]
    refine ⟨_, rfl, ?_, ?_⟩
    · rw [inserted_length, removed_length hg, hs.1]
      have h1 : g.cursor_row < g.rows := by rw [← hs.1]; exact hg
      omega
    · intro row hrow
      rcases mem_inserted hrow with h | h
      · rw [h]; exact blankRow_length g.cols
      · exact hs.2 _ (mem_removed h)
  · exact ⟨cs, rfl, hs⟩

theorem deleteChars_ok (g : TermGrid) (n : Nat) (hsh : Shape g.cells g.rows g.cols)
    (hcr : g.cursor_row < g.rows) :
    ∃ cs, repeatM n (fun cs =>
      match cs[g.cursor_row]? with
      | none => none
      | some row =>
        if g.cursor_col < row.length then do
          let row2 ← vecRemove row g.cursor_col
          some (cs.set g.cursor_row (row2 ++ [TermCell.dfault]))
        else some cs) g.cells = some cs ∧ Shape cs g.rows g.cols := by
  apply repeatM_some (fun cs => Shape cs g.rows g.cols) _ n g.cells hsh
  intro cs hs
  obtain ⟨row, hrow, hlen⟩ := hs.rowAt hcr
  rw [hrow]
  dsimp only
  split_ifs with hcl
  · rw [vecRemove_some hcl]
    simp only [Option.bind_eq_bind, Option.some_bind]
    refine ⟨_, rfl, hs.set _ ?_⟩
    rw [List.length_append, removed_length hcl, hlen]
    simp only [List.length_cons, List.length_nil]
    omega
  · exact ⟨cs, rfl, hs⟩

theorem insertChars_ok (g : TermGrid) (n : Nat) (hsh : Shape g.cells g.rows g.cols)
    (hcr : g.cursor_row < g.rows) (hcc : g.cursor_col ≤ g.cols) :
    ∃ cs, repeatM n (fun cs =>
      match cs[g.cursor_row]? with
      | none => none
      | some row => do
        let row2 ← vecInsert row g.cursor_col TermCell.dfault
        some (cs.set g.cursor_row (row2.take g.cols))) g.cells = some cs ∧
      Shape cs g.rows g.cols := by
  apply repeatM_some (fun cs => Shape cs g.rows g.cols) _ n g.cells hsh
  intro cs hs
  obtain ⟨row, hrow, hlen⟩ := hs.rowAt hcr
  rw [hrow]
  dsimp only
  rw [vecInsert_some (show g.cursor_col ≤ row.length by rw [hlen]; exact hcc) TermCell.dfault]
  simp only [Option.bind_eq_bind, Option.some_bind]
  refine ⟨_, rfl, hs.set _ ?_⟩
  rw [List.length_take, inserted_length, hlen]
  omega

theorem esc_dispatch_spec (g : TermGrid) (b : Nat) (hwf : WF g) :
    ∃ g2, g.esc_dispatch b = some g2 ∧ WF g2 ∧ g2.rows = g.rows ∧ g2.cols = g.cols ∧
      g2.cursor_col = g.cursor_col := by
  obtain ⟨hrows, hcols, hsh, hcr, hcc, hst, hsb⟩ := hwf
  unfold TermGrid.esc_dispatch
  split_ifs with h77 htop hrem
  · rw [vecRemove_some hrem]
    simp only [Option.bind_eq_bind, Option.some_bind]
    have hlen : (g.cells.take g.scroll_bottom ++ g.cells.drop (g.scroll_bottom + 1)).length =
        g.rows - 1 := by rw [removed_length hrem, hsh.1]
    rw [vecInsert_some (show g.scroll_top ≤ _ by rw [hlen]; omega) (blankRow g.cols)]
    simp only [Option.some_bind]
    refine ⟨_, rfl, ⟨hrows, hcols, ⟨?_, ?_⟩, hcr, hcc, hst, hsb⟩, rfl, rfl, rfl⟩
    · show _ = g.rows
      rw [inserted_length, hlen]; omega
    · intro row hrow
      rcases mem_inserted hrow with h | h
      · rw [h]; exact blankRow_length g.cols
      · exact hsh.2 _ (mem_removed h)
  · exact absurd (show g.scroll_bottom < g.cells.length by rw [hsh.1]; omega) hrem
  · exact ⟨{ g with cursor_row := g.cursor_row - 1 }, rfl,
      ⟨hrows, hcols, hsh, show g.cursor_row - 1 < g.rows by omega, hcc, hst, hsb⟩,
      rfl, rfl, rfl⟩
  · exact ⟨g, rfl, ⟨hrows, hcols, hsh, hcr, hcc, hst, hsb⟩, rfl, rfl, rfl⟩

theorem listResize_length {α : Type} (l : List α) (n : Nat) (pad : α) :
    (listResize l n pad).length = n := by
  simp only [listResize, List.length_append, List.length_take, List.length_replicate]
  omega

theorem listResize_getElem {α : Type} (l : List α) (n : Nat) (pad : α) {i : Nat} (hi : i < n) :
    (listResize l n pad)[i]? = some (if h : i < l.length then l[i] else pad) := by
  unfold listResize
  by_cases hl : i < l.length
  · rw [dif_pos hl, List.getElem?_append_left (by rw [List.length_take]; omega),
      List.getElem?_take, if_pos hi, List.getElem?_eq_getElem hl]
  · rw [dif_neg hl, List.getElem?_append_right (by rw [List.length_take]; omega),
      List.getElem?_replicate, List.length_take, if_pos (by omega)]

theorem resize_wf (g : TermGrid) (rows cols : Nat) (hr : 0 < rows) (hc : 0 < cols) :
    WF (g.resize rows cols) := by
  refine ⟨hr, hc, ⟨?_, ?_⟩, ?_, ?_, ?_, ?_⟩
  · show ((listResize g.cells rows (blankRow cols)).map
      (fun row => listResize row cols TermCell.dfault)).length = rows
    rw [List.length_map, listResize_length]
  · intro row hrow
    obtain ⟨row0, _, hmap⟩ := List.mem_map.mp hrow
    rw [← hmap, listResize_length]
    rfl
  · show min g.cursor_row (rows - 1) < rows
    omega
  · show min g.cursor_col (cols - 1) ≤ cols
    omega
  · show 0 < rows
    exact hr
  · show rows - 1 < rows
    omega

set_option maxHeartbeats 1600000 in
theorem csi_dispatch_wf (g : TermGrid) (params : List Nat) (interQ : Bool) (action : Char)
    (hwf : WF g) :
    ∃ g2 out, g.csi_dispatch params interQ action = some (g2, out) ∧ WF g2 ∧
      g2.rows = g.rows ∧ g2.cols = g.cols ∧
      (g2.cursor_col ≤ g.cursor_col ∨ g2.cursor_col < g2.cols) := by
  obtain ⟨hrows, hcols, hsh, hcr, hcc, hst, hsb⟩ := hwf
  have hwf2 : WF g := ⟨hrows, hcols, hsh, hcr, hcc, hst, hsb⟩
  unfold TermGrid.csi_dispatch
  cases interQ
  case true =>
    rw [if_pos rfl]
    exact ⟨g, [], rfl, hwf2, rfl, rfl, Or.inl (le_refl _)⟩
  case false =>
  rw [if_neg (by simp)]
  by_cases hA : action = 'A'
  · rw [if_pos hA]
    exact ⟨_, [], rfl, ⟨hrows, hcols, hsh,
      show g.cursor_row - getParam params 0 1 < g.rows by omega,
      hcc, hst, hsb⟩, rfl, rfl, Or.inl (le_refl _)⟩
  rw [if_neg hA]
  by_cases hB : action = 'B'
  · rw [if_pos hB]
    exact ⟨_, [], rfl, ⟨hrows, hcols, hsh,
      show min (g.cursor_row + getParam params 0 1) (g.rows - 1) < g.rows by omega,
      hcc, hst, hsb⟩, rfl, rfl, Or.inl (le_refl _)⟩
  rw [if_neg hB]
  by_cases hC : action = 'C'
  · rw [if_pos hC]
    exact ⟨_, [], rfl, ⟨hrows, hcols, hsh, hcr,
      show min (g.cursor_col + getParam params 0 1) (g.cols - 1) ≤ g.cols by omega,
      hst, hsb⟩, rfl, rfl,
      Or.inr (show min (g.cursor_col + getParam params 0 1) (g.cols - 1) < g.cols by omega)⟩
  rw [if_neg hC]
  by_cases hD : action = 'D'
  · rw [if_pos hD]
    exact ⟨_, [], rfl, ⟨hrows, hcols, hsh, hcr,
      show g.cursor_col - getParam params 0 1 ≤ g.cols by omega, hst, hsb⟩, rfl, rfl,
      Or.inl (show g.cursor_col - getParam params 0 1 ≤ g.cursor_col by omega)⟩
  rw [if_neg hD]
  by_cases hHf : action = 'H' ∨ action = 'f'
  · rw [if_pos hHf]
    exact ⟨_, [], rfl, ⟨hrows, hcols, hsh,
      show min (getParam params 0 1 - 1) (g.rows - 1) < g.rows by omega,
      show min (getParam params 1 1 - 1) (g.cols - 1) ≤ g.cols by omega,
      hst, hsb⟩, rfl, rfl,
      Or.inr (show min (getParam params 1 1 - 1) (g.cols - 1) < g.cols by omega)⟩
  rw [if_neg hHf]
  by_cases hJ : action = 'J'
  · rw [if_pos hJ]
    obtain ⟨cs, he, hs⟩ := erase_in_display_spec g (getParam params 0 0) hwf2
    refine ⟨{ g with cells := cs }, [], ?_,
      ⟨hrows, hcols, hs, hcr, hcc, hst, hsb⟩, rfl, rfl, Or.inl (le_refl _)⟩
    rw [he]
    rfl
  rw [if_neg hJ]
  by_cases hK : action = 'K'
  · rw [if_pos hK]
    obtain ⟨cs, he, hs⟩ := erase_in_line_spec g (getParam params 0 0) hwf2
    refine ⟨{ g with cells := cs }, [], ?_,
      ⟨hrows, hcols, hs, hcr, hcc, hst, hsb⟩, rfl, rfl, Or.inl (le_refl _)⟩
    rw [he]
    rfl
  rw [if_neg hK]
  by_cases hm : action = 'm'
  · rw [if_pos hm]
    by_cases hlen : params.length = 0
    · rw [if_pos hlen]
      exact ⟨_, [], rfl, ⟨hrows, hcols, hsh, hcr, hcc, hst, hsb⟩, rfl, rfl,
        Or.inl (le_refl _)⟩
    · rw [if_neg hlen]
      obtain ⟨f1, f2, f3, f4, f5, f6, f7⟩ := apply_sgr_frame g params
      refine ⟨g.apply_sgr params, [], rfl, ?_, f2, f3, Or.inl (le_of_eq f5)⟩
      unfold WF
      rw [f1, f2, f3, f4, f5, f6, f7]
      exact ⟨hrows, hcols, hsh, hcr, hcc, hst, hsb⟩
  rw [if_neg hm]
  by_cases hr : action = 'r'
  · rw [if_pos hr]
    exact ⟨_, [], rfl, ⟨hrows, hcols, hsh, hcr, hcc,
      show min (getParam params 0 1 - 1) (g.rows - 1) < g.rows by omega,
      show min (getParam params 1 g.rows - 1) (g.rows - 1) < g.rows by omega⟩,
      rfl, rfl, Or.inl (le_refl _)⟩
  rw [if_neg hr]
  by_cases hL : action = 'L'
  · rw [if_pos hL]
    obtain ⟨cs, hrep, hs⟩ := insertLines_ok g (getParam params 0 1) hsh
    refine ⟨{ g with cells := cs }, [], ?_,
      ⟨hrows, hcols, hs, hcr, hcc, hst, hsb⟩, rfl, rfl, Or.inl (le_refl _)⟩
    rw [hrep]
    rfl
  rw [if_neg hL]
  by_cases hM : action = 'M'
  · rw [if_pos hM]
    obtain ⟨cs, hrep, hs⟩ := deleteLines_ok g (getParam params 0 1) hsh
    refine ⟨{ g with cells := cs }, [], ?_,
      ⟨hrows, hcols, hs, hcr, hcc, hst, hsb⟩, rfl, rfl, Or.inl (le_refl _)⟩
    rw [hrep]
    rfl
  rw [if_neg hM]
  by_cases hP : action = 'P'
  · rw [if_pos hP]
    obtain ⟨cs, hrep, hs⟩ := deleteChars_ok g (getParam params 0 1) hsh hcr
    refine ⟨{ g with cells := cs }, [], ?_,
      ⟨hrows, hcols, hs, hcr, hcc, hst, hsb⟩, rfl, rfl, Or.inl (le_refl _)⟩
    rw [hrep]
    rfl
  rw [if_neg hP]
  by_cases hAt : action = '@'
  · rw [if_pos hAt]
    obtain ⟨cs, hrep, hs⟩ := insertChars_ok g (getParam params 0 1) hsh hcr hcc
    refine ⟨{ g with cells := cs }, [], ?_,
      ⟨hrows, hcols, hs, hcr, hcc, hst, hsb⟩, rfl, rfl, Or.inl (le_refl _)⟩
    rw [hrep]
    rfl
  rw [if_neg hAt]
  by_cases hn : action = 'n'
  · rw [if_pos hn]
    by_cases h6 : getParam params 0 0 = 6
    · rw [if_pos h6]
      exact ⟨g, utf8 g.dsr_response, rfl, hwf2, rfl, rfl, Or.inl (le_refl _)⟩
    · rw [if_neg h6]
      exact ⟨g, [], rfl, hwf2, rfl, rfl, Or.inl (le_refl _)⟩
  rw [if_neg hn]
  by_cases hd : action = 'd'
  · rw [if_pos hd]
    exact ⟨_, [], rfl, ⟨hrows, hcols, hsh,
      show min (getParam params 0 1 - 1) (g.rows - 1) < g.rows by omega,
      hcc, hst, hsb⟩, rfl, rfl, Or.inl (le_refl _)⟩
  rw [if_neg hd]
  by_cases hG : action = 'G'
  · rw [if_pos hG]
    exact ⟨_, [], rfl, ⟨hrows, hcols, hsh, hcr,
      show min (getParam params 0 1 - 1) (g.cols - 1) ≤ g.cols by omega, hst, hsb⟩, rfl, rfl,
      Or.inr (show min (getParam params 0 1 - 1) (g.cols - 1) < g.cols by omega)⟩
  rw [if_neg hG]
  exact ⟨g, [], rfl, hwf2, rfl, rfl, Or.inl (le_refl _)⟩

theorem applyEvent_wf (g : TermGrid) (ev : TermEvent) (hwf : WF g) :
    ∃ g2 out, applyEvent g ev = some (g2, out) ∧ WF g2 := by
  cases ev with
  | print c =>
    obtain ⟨g2, he, hw, _, _, _⟩ := print_spec g c hwf
    exact ⟨g2, [], by simp [applyEvent, he], hw⟩
  | execute b =>
    obtain ⟨g2, he, hw, _, _, _⟩ := execute_spec g b hwf
    exact ⟨g2, [], by simp [applyEvent, he], hw⟩
  | csi params interQ action =>
    obtain ⟨g2, out, he, hw, _, _, _⟩ := csi_dispatch_wf g params interQ action hwf
    exact ⟨g2, out, he, hw⟩
  | esc b =>
    obtain ⟨g2, he, hw, _, _, _⟩ := esc_dispatch_spec g b hwf
    exact ⟨g2, [], by simp [applyEvent, he], hw⟩
  | strEvent => exact ⟨g, [], rfl, hwf⟩

theorem applyEvents_wf (evs : List TermEvent) :
    ∀ g : TermGrid, WF g → ∃ g2 out, applyEvents g evs = some (g2, out) ∧ WF g2 := by
  induction evs with
  | nil => exact fun g hwf => ⟨g, [], rfl, hwf⟩
  | cons e es ih =>
    intro g hwf
    obtain ⟨g1, out1, he1, hw1⟩ := applyEvent_wf g e hwf
    obtain ⟨g2, out2, he2, hw2⟩ := ih g1 hw1
    exact ⟨g2, out1 ++ out2, by simp [applyEvents, he1, he2], hw2⟩

-- ── Pointwise characterization lemmas ────────────────────────────────────

theorem removed_getElem_lt {α : Type} {l : List α} {i j : Nat} (hij : j < i)
    (hi : i < l.length) :
    (l.take i ++ l.drop (i + 1))[j]? = l[j]? := by
  rw [List.getElem?_append_left (by rw [List.length_take]; omega), List.getElem?_take,
    if_pos hij]

theorem removed_getElem_ge {α : Type} {l : List α} {i j : Nat} (hij : i ≤ j)
    (hi : i < l.length) :
    (l.take i ++ l.drop (i + 1))[j]? = l[j + 1]? := by
  have hlen : (l.take i).length = i := by rw [List.length_take]; omega
  rw [List.getElem?_append_right (by rw [hlen]; omega), hlen, List.getElem?_drop]
  congr 1
  omega

theorem inserted_getElem_lt {α : Type} {l : List α} {i j : Nat} {a : α} (hij : j < i)
    (hi : i ≤ l.length) :
    (l.take i ++ a :: l.drop i)[j]? = l[j]? := by
  rw [List.getElem?_append_left (by rw [List.length_take]; omega), List.getElem?_take,
    if_pos hij]

theorem inserted_getElem_self {α : Type} {l : List α} {i : Nat} {a : α} (hi : i ≤ l.length) :
    (l.take i ++ a :: l.drop i)[i]? = some a := by
  have hlen : (l.take i).length = i := by rw [List.length_take]; omega
  rw [List.getElem?_append_right (by omega), hlen, Nat.sub_self, List.getElem?_cons_zero]

theorem inserted_getElem_gt {α : Type} {l : List α} {i j : Nat} {a : α} (hij : i < j)
    (hi : i ≤ l.length) :
    (l.take i ++ a :: l.drop i)[j]? = l[j - 1]? := by
  have hlen : (l.take i).length = i := by rw [List.length_take]; omega
  rw [List.getElem?_append_right (by omega), hlen]
  obtain ⟨k, hk⟩ : ∃ k, j - i = k + 1 := ⟨j - i - 1, by omega⟩
  rw [hk, List.getElem?_cons_succ, List.getElem?_drop]
  congr 1
  omega

/-- The cell a `print` writes: current char plus pending attribute state. -/
def printedCell (g : TermGrid) (c : Char) : TermCell :=
  { ch := c, fg := g.current_fg, bg := g.current_bg, bold := g.current_bold }

theorem setCell_eq {cells : List (List TermCell)} {r : Nat} {row : List TermCell}
    (hrow : cells[r]? = some row) {c : Nat} (hc : c < row.length) (x : TermCell) :
    setCell cells r c x = some (cells.set r (row.set c x)) := by
  simp [setCell, hrow, vecSet_some hc]

theorem print_no_wrap (g : TermGrid) (c : Char) {row : List TermCell}
    (hcr : g.cursor_row < g.rows) (hcol : g.cursor_col < g.cols)
    (hrow : g.cells[g.cursor_row]? = some row) (hrl : g.cursor_col < row.length) :
    g.print c = some { g with
      cells := g.cells.set g.cursor_row (row.set g.cursor_col (printedCell g c)),
      cursor_col := g.cursor_col + 1 } := by
  unfold TermGrid.print
  rw [if_neg (by omega)]
  simp only [Option.bind_eq_bind, Option.some_bind]
  rw [if_pos ⟨hcr, hcol⟩, setCell_eq hrow hrl]
  rfl

theorem print_wrap_eq (g : TermGrid) (c : Char) (hwrap : g.cols ≤ g.cursor_col) :
    g.print c = (TermGrid.newline { g with cursor_col := 0 }).bind (fun gn =>
      if gn.cursor_row < gn.rows ∧ gn.cursor_col < gn.cols then
        (setCell gn.cells gn.cursor_row gn.cursor_col
          { ch := c, fg := gn.current_fg, bg := gn.current_bg, bold := gn.current_bold }).map
          (fun cs => { gn with cells := cs, cursor_col := gn.cursor_col + 1 })
      else some gn) := by
  unfold TermGrid.print
  rw [if_pos hwrap]
  cases TermGrid.newline { g with cursor_col := 0 } with
  | none => rfl
  | some gn =>
    simp only [Option.bind_eq_bind, Option.some_bind]
    split_ifs with h
    · cases setCell gn.cells gn.cursor_row gn.cursor_col
        { ch := c, fg := gn.current_fg, bg := gn.current_bg, bold := gn.current_bold } <;> rfl
    · rfl

/-- The cell matrix after `scroll_up` succeeds: row `scroll_top` removed, a
blank row inserted at `scroll_bottom`. -/
def TermGrid.scrolled (g : TermGrid) : List (List TermCell) :=
  (g.cells.take g.scroll_top ++ g.cells.drop (g.scroll_top + 1)).take g.scroll_bottom ++
    blankRow g.cols ::
      (g.cells.take g.scroll_top ++ g.cells.drop (g.scroll_top + 1)).drop g.scroll_bottom

theorem newline_scroll (g : TermGrid) (htop : g.cursor_row = g.scroll_bottom)
    (h1 : g.scroll_top < g.scroll_bottom) (h2 : g.scroll_bottom < g.rows)
    (hlen : g.cells.length = g.rows) :
    g.newline = some { g with cells := g.scrolled } := by
  unfold TermGrid.newline TermGrid.scroll_up
  rw [if_pos htop, if_pos ⟨h1, h2⟩, vecRemove_some (by omega)]
  simp only [Option.bind_eq_bind, Option.some_bind]
  rw [vecInsert_some (by rw [removed_length (by omega)]; omega) (blankRow g.cols)]
  rfl

theorem newline_scroll_noop (g : TermGrid) (htop : g.cursor_row = g.scroll_bottom)
    (h1 : ¬(g.scroll_top < g.scroll_bottom ∧ g.scroll_bottom < g.rows)) :
    g.newline = some g := by
  unfold TermGrid.newline TermGrid.scroll_up
  rw [if_pos htop, if_neg h1]

theorem newline_inc (g : TermGrid) (htop : g.cursor_row ≠ g.scroll_bottom)
    (h1 : g.cursor_row + 1 < g.rows) :
    g.newline = some { g with cursor_row := g.cursor_row + 1 } := by
  unfold TermGrid.newline
  rw [if_neg htop, if_pos h1]

theorem newline_stay (g : TermGrid) (htop : g.cursor_row ≠ g.scroll_bottom)
    (h1 : ¬g.cursor_row + 1 < g.rows) :
    g.newline = some g := by
  unfold TermGrid.newline
  rw [if_neg htop, if_neg h1]

theorem scrolled_length (g : TermGrid) (h1 : g.scroll_top < g.scroll_bottom)
    (h2 : g.scroll_bottom < g.rows) (hlen : g.cells.length = g.rows) :
    g.scrolled.length = g.rows := by
  unfold TermGrid.scrolled
  rw [inserted_length, removed_length (by omega)]
  omega

theorem scrolled_getElem_lt_top (g : TermGrid) {i : Nat} (hi : i < g.scroll_top)
    (h1 : g.scroll_top < g.scroll_bottom) (h2 : g.scroll_bottom < g.rows)
    (hlen : g.cells.length = g.rows) :
    g.scrolled[i]? = g.cells[i]? := by
  unfold TermGrid.scrolled
  rw [inserted_getElem_lt (by omega) (by rw [removed_length (by omega)]; omega),
    removed_getElem_lt hi (by omega)]

theorem scrolled_getElem_mid (g : TermGrid) {i : Nat} (hi1 : g.scroll_top ≤ i)
    (hi2 : i < g.scroll_bottom) (h2 : g.scroll_bottom < g.rows)
    (hlen : g.cells.length = g.rows) :
    g.scrolled[i]? = g.cells[i + 1]? := by
  unfold TermGrid.scrolled
  rw [inserted_getElem_lt hi2 (by rw [removed_length (by omega)]; omega),
    removed_getElem_ge hi1 (by omega)]

theorem scrolled_getElem_bottom (g : TermGrid) (h1 : g.scroll_top < g.scroll_bottom)
    (h2 : g.scroll_bottom < g.rows) (hlen : g.cells.length = g.rows) :
    g.scrolled[g.scroll_bottom]? = some (blankRow g.cols) := by
  unfold TermGrid.scrolled
  rw [inserted_getElem_self (by rw [removed_length (by omega)]; omega)]

theorem scrolled_getElem_gt (g : TermGrid) {i : Nat} (hi : g.scroll_bottom < i)
    (h1 : g.scroll_top < g.scroll_bottom) (h2 : g.scroll_bottom < g.rows)
    (hlen : g.cells.length = g.rows) :
    g.scrolled[i]? = g.cells[i]? := by
  unfold TermGrid.scrolled
  rw [inserted_getElem_gt hi (by rw [removed_length (by omega)]; omega),
    removed_getElem_ge (by omega) (by omega)]
  congr 1
  omega

theorem print_wrap_scroll (g : TermGrid) (c : Char) (hwrap : g.cols ≤ g.cursor_col)
    (htop : g.cursor_row = g.scroll_bottom) (h1 : g.scroll_top < g.scroll_bottom)
    (h2 : g.scroll_bottom < g.rows) (hlen : g.cells.length = g.rows)
    (hcr : g.cursor_row < g.rows) (hc : 0 < g.cols) :
    g.print c = some { g with
      cells := g.scrolled.set g.cursor_row ((blankRow g.cols).set 0 (printedCell g c)),
      cursor_col := 1 } := by
  have hrow : g.scrolled[g.cursor_row]? = some (blankRow g.cols) := by
    rw [htop]
    exact scrolled_getElem_bottom g h1 h2 hlen
  have hset : setCell g.scrolled g.cursor_row 0
      { ch := c, fg := g.current_fg, bg := g.current_bg, bold := g.current_bold } =
      some (g.scrolled.set g.cursor_row ((blankRow g.cols).set 0
        { ch := c, fg := g.current_fg, bg := g.current_bg, bold := g.current_bold })) :=
    setCell_eq hrow (by rw [blankRow_length]; exact hc) _
  have hs : TermGrid.scrolled { g with cursor_col := 0 } = TermGrid.scrolled g := rfl
  unfold TermGrid.print
  rw [if_pos hwrap, newline_scroll { g with cursor_col := 0 } htop h1 h2 hlen]
  simp [hs, hset, hcr, hc, printedCell]

theorem print_wrap_inc (g : TermGrid) (c : Char) {row1 : List TermCell}
    (hwrap : g.cols ≤ g.cursor_col) (htop : g.cursor_row ≠ g.scroll_bottom)
    (hinc : g.cursor_row + 1 < g.rows)
    (hrow : g.cells[g.cursor_row + 1]? = some row1) (hrl : 0 < row1.length)
    (hc : 0 < g.cols) :
    g.print c = some { g with
      cells := g.cells.set (g.cursor_row + 1) (row1.set 0 (printedCell g c)),
      cursor_row := g.cursor_row + 1,
      cursor_col := 1 } := by
  have hset : setCell g.cells (g.cursor_row + 1) 0
      { ch := c, fg := g.current_fg, bg := g.current_bg, bold := g.current_bold } =
      some (g.cells.set (g.cursor_row + 1) (row1.set 0
        { ch := c, fg := g.current_fg, bg := g.current_bg, bold := g.current_bold })) :=
    setCell_eq hrow hrl _
  unfold TermGrid.print
  rw [if_pos hwrap, newline_inc { g with cursor_col := 0 } htop hinc]
  simp [hset, hinc, hc, printedCell]

theorem print_wrap_same (g : TermGrid) (c : Char) {row : List TermCell}
    (hwrap : g.cols ≤ g.cursor_col)
    (hnl : TermGrid.newline { g with cursor_col := 0 } = some { g with cursor_col := 0 })
    (hcr : g.cursor_row < g.rows)
    (hrow : g.cells[g.cursor_row]? = some row) (hrl : 0 < row.length) (hc : 0 < g.cols) :
    g.print c = some { g with
      cells := g.cells.set g.cursor_row (row.set 0 (printedCell g c)),
      cursor_col := 1 } := by
  have hset : setCell g.cells g.cursor_row 0
      { ch := c, fg := g.current_fg, bg := g.current_bg, bold := g.current_bold } =
      some (g.cells.set g.cursor_row (row.set 0
        { ch := c, fg := g.current_fg, bg := g.current_bg, bold := g.current_bold })) :=
    setCell_eq hrow hrl _
  unfold TermGrid.print
  rw [if_pos hwrap, hnl]
  simp [hset, hcr, hc, printedCell]

theorem cellAt_set_set (cells : List (List TermCell)) (r : Nat) (row : List TermCell)
    (cell : TermCell) (hr : r < cells.length) (h0 : 0 < row.length) :
    ((cells.set r (row.set 0 cell))[r]?).bind (fun row2 => row2[0]?) = some cell := by
  rw [List.getElem?_set_self hr, Option.some_bind, List.getElem?_set_self h0]

/-- Claim C3 (amended): for a well-formed grid with the cursor in the last
column, printing one character and then another wraps: `cursor_col`
becomes 1 and the second character is written with the pending attributes
at column 0 of the row the cursor lands on (the next row when
`cursor_row ≠ scroll_bottom` and a next row exists).  When the wrap hits
`cursor_row = scroll_bottom` and the scroll region is proper
(`scroll_top < scroll_bottom`), the row at `scroll_top` is removed, a
fresh blank row is inserted at `scroll_bottom` (receiving the printed
character at column 0), rows above `scroll_top` and below `scroll_bottom`
are unchanged, and the rows in between shift up by one. -/
theorem claim_C3_wrap_print (g : TermGrid) (c1 c2 : Char) (hwf : WF g)
    (hcol : g.cursor_col = g.cols - 1) :
    ∃ g1 g2, g.print c1 = some g1 ∧ g1.print c2 = some g2 ∧
      g2.cursor_col = 1 ∧
      cellAt g2 g2.cursor_row 0 = some (printedCell g c2) ∧
      (g.cursor_row ≠ g.scroll_bottom → g.cursor_row + 1 < g.rows →
        g2.cursor_row = g.cursor_row + 1) ∧
      (g.cursor_row = g.scroll_bottom → g.scroll_top < g.scroll_bottom →
        g2.cursor_row = g.scroll_bottom ∧
        (∀ i, i < g.scroll_top → g2.cells[i]? = g.cells[i]?) ∧
        (∀ i, g.scroll_bottom < i → g2.cells[i]? = g.cells[i]?) ∧
        (∀ i, g.scroll_top ≤ i → i < g.scroll_bottom → g2.cells[i]? = g1.cells[i + 1]?) ∧
        g2.cells[g.scroll_bottom]? = some ((blankRow g.cols).set 0 (printedCell g c2))) := by
  obtain ⟨hrows, hcols, hsh, hcr, hcc, hst, hsb⟩ := hwf
  obtain ⟨row, hrow, hrl⟩ := hsh.rowAt hcr
  have hlt : g.cursor_col < g.cols := by omega
  have hp1 := print_no_wrap g c1 hcr hlt hrow (by omega)
  have hshape1 : Shape (g.cells.set g.cursor_row (row.set g.cursor_col (printedCell g c1)))
      g.rows g.cols := hsh.set _ (by simp [hrl])
  by_cases htop : g.cursor_row = g.scroll_bottom
  · by_cases hscroll : g.scroll_top < g.scroll_bottom
    · set G1 : TermGrid := { g with cells := g.cells.set g.cursor_row (row.set g.cursor_col (printedCell g c1)), cursor_col := g.cursor_col + 1 } with hG1
      have hlenG1 : G1.cells.length = g.rows := hshape1.1
      have hp2 := print_wrap_scroll G1 c2 (show g.cols ≤ g.cursor_col + 1 by omega) htop
        hscroll hsb hlenG1 hcr hcols
      have hlen2 : G1.scrolled.length = g.rows := scrolled_length G1 hscroll hsb hlenG1
      have hcellsG1 : G1.cells =
          g.cells.set g.cursor_row (row.set g.cursor_col (printedCell g c1)) := by rw [hG1]
      have hne : ∀ i : Nat, i ≠ g.cursor_row → g.cursor_row ≠ i := fun i h => (Ne.symm h)
      refine ⟨G1, _, hp1, hp2, ?_, ?_, fun hne2 _ => absurd htop hne2,
        fun _ _ => ⟨?_, ?_, ?_, ?_, ?_⟩⟩
      · rfl
      · unfold cellAt
        exact cellAt_set_set _ G1.cursor_row _ _ (by rw [hlen2]; exact hcr)
          (by rw [blankRow_length]; exact hcols)
      · exact htop
      · intro i hi
        rw [List.getElem?_set_ne (show G1.cursor_row ≠ i by show g.cursor_row ≠ i; omega),
          scrolled_getElem_lt_top G1 (show i < G1.scroll_top from hi) hscroll hsb hlenG1,
          hcellsG1, List.getElem?_set_ne (show g.cursor_row ≠ i by omega)]
      · intro i hi
        rw [List.getElem?_set_ne (show G1.cursor_row ≠ i by show g.cursor_row ≠ i; omega),
          scrolled_getElem_gt G1 (show G1.scroll_bottom < i from hi) hscroll hsb hlenG1,
          hcellsG1, List.getElem?_set_ne (show g.cursor_row ≠ i by omega)]
      · intro i hi1 hi2
        rw [List.getElem?_set_ne (show G1.cursor_row ≠ i by show g.cursor_row ≠ i; omega),
          scrolled_getElem_mid G1 (show G1.scroll_top ≤ i from hi1)
            (show i < G1.scroll_bottom from hi2) hsb hlenG1]
      · have hcur : G1.cursor_row = g.scroll_bottom := htop
        rw [← hcur, List.getElem?_set_self (by rw [hlen2]; exact hcr)]
        rfl
    · have hnl := newline_scroll_noop
        ({ g with cells := g.cells.set g.cursor_row (row.set g.cursor_col (printedCell g c1)), cursor_col := 0 }) htop (fun h => hscroll h.1)
      have hrow1 : (g.cells.set g.cursor_row (row.set g.cursor_col (printedCell g c1)))[g.cursor_row]? = some (row.set g.cursor_col (printedCell g c1)) :=
        List.getElem?_set_self (by rw [hsh.1]; exact hcr)
      have hp2 := print_wrap_same
        ({ g with cells := g.cells.set g.cursor_row (row.set g.cursor_col (printedCell g c1)), cursor_col := g.cursor_col + 1 }) c2
        (show g.cols ≤ g.cursor_col + 1 by omega) hnl hcr hrow1
        (by rw [List.length_set, hrl]; exact hcols) hcols
      refine ⟨_, _, hp1, hp2, ?_, ?_, fun hne _ => absurd htop hne,
        fun _ hs => absurd hs hscroll⟩
      · rfl
      unfold cellAt
      exact cellAt_set_set _ g.cursor_row _ _ (by rw [List.length_set, hsh.1]; exact hcr)
        (by rw [List.length_set, hrl]; exact hcols)
  · by_cases hinc : g.cursor_row + 1 < g.rows
    · obtain ⟨row1, hrow1, hrl1⟩ := hshape1.rowAt (show g.cursor_row + 1 < g.rows from hinc)
      have hp2 := print_wrap_inc
        ({ g with cells := g.cells.set g.cursor_row (row.set g.cursor_col (printedCell g c1)), cursor_col := g.cursor_col + 1 }) c2
        (show g.cols ≤ g.cursor_col + 1 by omega) htop hinc hrow1
        (by rw [hrl1]; exact hcols) hcols
      refine ⟨_, _, hp1, hp2, ?_, ?_, fun _ _ => rfl, fun ht _ => absurd ht htop⟩
      · rfl
      unfold cellAt
      exact cellAt_set_set _ (g.cursor_row + 1) _ _
        (by rw [List.length_set, hsh.1]; exact hinc) (by rw [hrl1]; exact hcols)
    · have hnl := newline_stay
        ({ g with cells := g.cells.set g.cursor_row (row.set g.cursor_col (printedCell g c1)), cursor_col := 0 }) htop hinc
      have hrow1 : (g.cells.set g.cursor_row (row.set g.cursor_col (printedCell g c1)))[g.cursor_row]? = some (row.set g.cursor_col (printedCell g c1)) :=
        List.getElem?_set_self (by rw [hsh.1]; exact hcr)
      have hp2 := print_wrap_same
        ({ g with cells := g.cells.set g.cursor_row (row.set g.cursor_col (printedCell g c1)), cursor_col := g.cursor_col + 1 }) c2
        (show g.cols ≤ g.cursor_col + 1 by omega) hnl hcr hrow1
        (by rw [List.length_set, hrl]; exact hcols) hcols
      refine ⟨_, _, hp1, hp2, ?_, ?_, fun _ hi => absurd hi hinc,
        fun ht _ => absurd ht htop⟩
      · rfl
      unfold cellAt
      exact cellAt_set_set _ g.cursor_row _ _ (by rw [List.length_set, hsh.1]; exact hcr)
        (by rw [List.length_set, hrl]; exact hcols)

-- ── Dispatch equations for specific actions ──────────────────────────────

theorem csi_dispatch_J (g : TermGrid) (params : List Nat) :
    g.csi_dispatch params false 'J' =
      (g.erase_in_display (getParam params 0 0)).map (fun g2 => (g2, [])) := by
  simp [TermGrid.csi_dispatch]

theorem csi_dispatch_r (g : TermGrid) (params : List Nat) :
    g.csi_dispatch params false 'r' =
      some ({ g with scroll_top := min (getParam params 0 1 - 1) (g.rows - 1),
                     scroll_bottom := min (getParam params 1 g.rows - 1) (g.rows - 1) }, []) := by
  simp [TermGrid.csi_dispatch]

theorem csi_dispatch_n (g : TermGrid) (params : List Nat) :
    g.csi_dispatch params false 'n' =
      some (g, if getParam params 0 0 = 6 then utf8 g.dsr_response else []) := by
  simp [TermGrid.csi_dispatch]
  split_ifs <;> rfl

theorem erase_full (g : TermGrid) (mode : Nat) (hm : mode = 2 ∨ mode = 3) :
    g.erase_in_display mode =
      some { g with cells := g.cells.map (fun row => row.map (fun _ => TermCell.dfault)) } := by
  unfold TermGrid.erase_in_display
  rw [if_neg (by omega), if_neg (by omega), if_pos hm]

-- ── Claims ───────────────────────────────────────────────────────────────

/-- Claim C1: applying any sequence of parsed events — printable
characters, control bytes, CSI sequences with arbitrary parameter lists
(including SGR 38;5;N and 48;5;N with any u16 N, resolved through the
256-color function) and arbitrary final actions, ESC dispatches, and
string events — to a well-formed grid never panics: the panic-tracking
embedding always returns `some`, and the resulting grid is again
well-formed (no corruption of the shape/cursor/scroll invariants). -/
theorem claim_C1_events_total (g : TermGrid) (evs : List TermEvent) (hwf : WF g) :
    ∃ g2 out, applyEvents g evs = some (g2, out) ∧ WF g2 :=
  applyEvents_wf evs g hwf

theorem claim_C1_events_total_witness :
    ∃ g2 out, applyEvents (TermGrid.new 2 2)
      [TermEvent.csi [38, 5, 300] false 'm', TermEvent.csi [10, 5] false 'r',
       TermEvent.csi [999] false 'Z', TermEvent.print (Char.ofNat 97),
       TermEvent.execute 10, TermEvent.esc 77] = some (g2, out) ∧ WF g2 :=
  claim_C1_events_total (TermGrid.new 2 2) _ (by decide)

/-- Claim C2 counterexample: on a fresh 24×80 grid, `CSI 10;5 r` (top
parameter greater than bottom) leaves `scroll_top = 9` and
`scroll_bottom = 4`, so the claimed invariant
`scroll_top ≤ scroll_bottom` does not hold after the operation. -/
theorem claim_C2_counterexample :
    (((TermGrid.new 24 80).csi_dispatch [10, 5] false 'r').map
      (fun x => (x.1.scroll_top, x.1.scroll_bottom))) = some (9, 4) ∧
    ¬(9 : Nat) ≤ 4 := by
  constructor
  · rw [csi_dispatch_r]
    rfl
  · decide

/-- Claim C2 (amended): for every grid with `rows > 0`, `CSI r` with any
parameters leaves both `scroll_top` and `scroll_bottom` individually in
`[0, rows-1]`; the ordering `scroll_top ≤ scroll_bottom` additionally
holds whenever the (defaulted) top parameter is at most the (defaulted)
bottom parameter — but not in general, as the counterexample shows. -/
theorem claim_C2_scroll_region_clamped (g : TermGrid) (params : List Nat)
    (hrows : 0 < g.rows) :
    ∃ g2, g.csi_dispatch params false 'r' = some (g2, []) ∧
      g2.rows = g.rows ∧
      g2.scroll_top < g.rows ∧ g2.scroll_bottom < g.rows ∧
      (getParam params 0 1 ≤ getParam params 1 g.rows →
        g2.scroll_top ≤ g2.scroll_bottom) := by
  refine ⟨_, csi_dispatch_r g params, rfl, ?_, ?_, ?_⟩
  · show min (getParam params 0 1 - 1) (g.rows - 1) < g.rows
    omega
  · show min (getParam params 1 g.rows - 1) (g.rows - 1) < g.rows
    omega
  · intro h
    show min (getParam params 0 1 - 1) (g.rows - 1) ≤
      min (getParam params 1 g.rows - 1) (g.rows - 1)
    omega

theorem claim_C2_scroll_region_clamped_witness :
    ∃ g2, (TermGrid.new 24 80).csi_dispatch [5, 10] false 'r' = some (g2, []) ∧
      g2.rows = 24 ∧ g2.scroll_top < 24 ∧ g2.scroll_bottom < 24 ∧
      (getParam [5, 10] 0 1 ≤ getParam [5, 10] 1 24 → g2.scroll_top ≤ g2.scroll_bottom) :=
  claim_C2_scroll_region_clamped (TermGrid.new 24 80) [5, 10] (by decide)

/-- Claim C5: for every grid, `CSI 2 J` and `CSI 3 J` succeed, make every
cell of the (same-shaped) matrix equal to the default cell, and leave the
cursor position and the pending attribute state (current foreground,
background, bold) unchanged. -/
theorem claim_C5_erase_screen (g : TermGrid) :
    ∃ g2 g3, g.csi_dispatch [2] false 'J' = some (g2, []) ∧
      g.csi_dispatch [3] false 'J' = some (g3, []) ∧
      g3 = g2 ∧
      g2.cursor_row = g.cursor_row ∧ g2.cursor_col = g.cursor_col ∧
      g2.current_fg = g.current_fg ∧ g2.current_bg = g.current_bg ∧
      g2.current_bold = g.current_bold ∧
      g2.rows = g.rows ∧ g2.cols = g.cols ∧
      g2.cells.length = g.cells.length ∧
      (∀ row ∈ g2.cells, ∀ cell ∈ row, cell = TermCell.dfault) := by
  refine ⟨{ g with cells := g.cells.map (fun row => row.map (fun _ => TermCell.dfault)) }, _,
    ?_, ?_, rfl, rfl, rfl, rfl, rfl, rfl, rfl, rfl, ?_, ?_⟩
  · rw [csi_dispatch_J, erase_full g (getParam [2] 0 0) (by decide)]
    rfl
  · rw [csi_dispatch_J, erase_full g (getParam [3] 0 0) (by decide)]
    rfl
  · show (g.cells.map (fun row => row.map (fun _ => TermCell.dfault))).length = g.cells.length
    rw [List.length_map]
  · intro row hrow cell hcell
    obtain ⟨row0, _, hmap⟩ := List.mem_map.mp hrow
    rw [← hmap] at hcell
    obtain ⟨c0, _, hc⟩ := List.mem_map.mp hcell
    exact hc.symm

/-- Claim C6: for every grid and parameter list, `CSI n` with first
(defaulted) parameter 6 writes back exactly the bytes of
`ESC [ <cursor_row+1> ; <cursor_col+1> R` through the PTY write end and
leaves the grid unchanged; any other parameter value produces no output;
and at `cursor_row = 4`, `cursor_col = 9` the reply is exactly the bytes
`ESC [ 5 ; 10 R` = `[27, 91, 53, 59, 49, 48, 82]`. -/
theorem claim_C6_dsr (g : TermGrid) (params : List Nat) :
    (getParam params 0 0 = 6 →
      g.csi_dispatch params false 'n' = some (g, utf8 g.dsr_response)) ∧
    (getParam params 0 0 ≠ 6 →
      g.csi_dispatch params false 'n' = some (g, [])) ∧
    utf8 (TermGrid.dsr_response
      { TermGrid.new 24 80 with cursor_row := 4, cursor_col := 9 }) =
      [27, 91, 53, 59, 49, 48, 82] := by
  refine ⟨fun h6 => ?_, fun h6 => ?_, ?_⟩
  · rw [csi_dispatch_n, if_pos h6]
  · rw [csi_dispatch_n, if_neg h6]
  · decide

theorem claim_C6_dsr_witness :
    (TermGrid.new 24 80).csi_dispatch [6] false 'n' =
      some (TermGrid.new 24 80, utf8 (TermGrid.new 24 80).dsr_response) ∧
    (TermGrid.new 24 80).csi_dispatch [5] false 'n' = some (TermGrid.new 24 80, []) :=
  ⟨(claim_C6_dsr (TermGrid.new 24 80) [6]).1 (by decide),
   (claim_C6_dsr (TermGrid.new 24 80) [5]).2.1 (by decide)⟩

/-- Modelled from the spec: the 216-color-cube formula of §4.2 — treat
`N-16` as a base-6 triple `(r,g,b)` with `r = idx/36`, `g = (idx/6) mod 6`,
`b = idx mod 6`, each component mapping to 0 if the digit is 0 and to
`55 + 40*digit` otherwise. -/
def spec_cube (n : Nat) : Rgb :=
  let idx := n - 16
  let comp := fun d : Nat => if d = 0 then 0 else 55 + 40 * d
  ⟨comp (idx / 36), comp ((idx / 6) % 6), comp (idx % 6)⟩

/-- Modelled from the spec: the grayscale-ramp formula of §4.2 —
`v = 8 + 10*(N-232)` in all three components. -/
def spec_gray (n : Nat) : Rgb :=
  let v := 8 + 10 * (n - 232)
  ⟨v, v, v⟩

set_option maxRecDepth 8000 in
/-- Claim C4: for every 256-color index `0 ≤ N ≤ 255`, `ansi_256_to_rgb`
returns: for `N < 16` exactly the color that the direct SGR code
(`30+N` standard, `90+(N-8)` bright) assigns to the foreground; for
`16 ≤ N < 232` the spec's base-6 cube formula; for `N ≥ 232` the spec's
grayscale ramp; and in particular `N = 16 ↦ [0,0,0]`,
`N = 21 ↦ [0,0,255]`, `N = 232 ↦ [8,8,8]`, `N = 255 ↦ [238,238,238]`. -/
theorem claim_C4_color_resolution :
    (∀ n : Nat, n < 8 →
      ansi_256_to_rgb n = ((TermGrid.new 1 1).apply_sgr [30 + n]).current_fg) ∧
    (∀ n : Nat, n < 16 → 8 ≤ n →
      ansi_256_to_rgb n = ((TermGrid.new 1 1).apply_sgr [90 + (n - 8)]).current_fg) ∧
    (∀ n : Nat, n < 232 → 16 ≤ n → ansi_256_to_rgb n = spec_cube n) ∧
    (∀ n : Nat, n < 256 → 232 ≤ n → ansi_256_to_rgb n = spec_gray n) ∧
    ansi_256_to_rgb 16 = ⟨0, 0, 0⟩ ∧ ansi_256_to_rgb 21 = ⟨0, 0, 255⟩ ∧
    ansi_256_to_rgb 232 = ⟨8, 8, 8⟩ ∧ ansi_256_to_rgb 255 = ⟨238, 238, 238⟩ := by
  refine ⟨?_, ?_, ?_, ?_, ?_, ?_, ?_, ?_⟩ <;> decide

theorem claim_C4_color_resolution_witness :
    ansi_256_to_rgb 3 = ((TermGrid.new 1 1).apply_sgr [33]).current_fg ∧
    ansi_256_to_rgb 12 = ((TermGrid.new 1 1).apply_sgr [94]).current_fg ∧
    ansi_256_to_rgb 100 = spec_cube 100 ∧
    ansi_256_to_rgb 240 = spec_gray 240 :=
  ⟨claim_C4_color_resolution.1 3 (by decide),
   claim_C4_color_resolution.2.1 12 (by decide) (by decide),
   claim_C4_color_resolution.2.2.1 100 (by decide) (by decide),
   claim_C4_color_resolution.2.2.2.1 240 (by decide) (by decide)⟩

/-- The concrete grid of the C3 counterexample: a 2×2 grid whose scroll
region is the single row 1 (reachable via `CSI 2;2 r`), cursor at the last
column of row 1, and a non-default cell at position (1,1). -/
def gC3 : TermGrid :=
  { cells := [[TermCell.dfault, TermCell.dfault],
              [TermCell.dfault, { TermCell.dfault with ch := 'y' }]]
    rows := 2
    cols := 2
    cursor_row := 1
    cursor_col := 1
    current_fg := defaultFg
    current_bg := none
    current_bold := false
    scroll_top := 1
    scroll_bottom := 1 }

set_option maxRecDepth 8000 in
/-- Claim C3 counterexample: on `gC3` (well-formed, cursor at column
`cols-1`, wrap occurring with `cursor_row = scroll_bottom`), printing 'a'
then 'b' yields row 1 = [cell 'b', cell 'a']: the old cell 'a' at (1,1)
survives.  The claim predicts that the row at `scroll_top` is removed and
a fresh default row inserted at `scroll_bottom` before 'b' is printed at
column 0, i.e. row 1 = [cell 'b', default] — so the claim is false here
(the code's `scroll_up` is a no-op when `scroll_top = scroll_bottom`). -/
theorem claim_C3_counterexample :
    WF gC3 ∧ gC3.cursor_col = gC3.cols - 1 ∧ gC3.cursor_row = gC3.scroll_bottom ∧
    ((gC3.print 'a').bind (fun g1 => g1.print 'b')).map TermGrid.cells =
      some [[TermCell.dfault, TermCell.dfault],
            [{ TermCell.dfault with ch := 'b' }, { TermCell.dfault with ch := 'a' }]] ∧
    ¬((gC3.print 'a').bind (fun g1 => g1.print 'b')).map TermGrid.cells =
      some [[TermCell.dfault, TermCell.dfault],
            [{ TermCell.dfault with ch := 'b' }, TermCell.dfault]] := by
  refine ⟨by decide, by decide, by decide, by decide, by decide⟩

theorem claim_C3_wrap_print_witness :
    (((({ TermGrid.new 3 2 with cursor_col := 1 } : TermGrid).print 'a').bind
      (fun g1 => g1.print 'b')).map TermGrid.cursor_col) = some 1 := by
  obtain ⟨g1, g2, h1, h2, h3, _⟩ := claim_C3_wrap_print
    ({ TermGrid.new 3 2 with cursor_col := 1 }) 'a' 'b' (by decide) (by decide)
  rw [h1, Option.some_bind, h2]
  simp [h3]

/-- Claim C7: for every well-formed grid and positive new dimensions,
`resize(rows', cols')` yields a `rows'×cols'` matrix where surviving cells
keep their contents, cells outside the old bounds are default, the cursor
is clamped into `[0, rows'-1]×[0, cols'-1]`, and the scroll region resets
to `(0, rows'-1)`. -/
theorem claim_C7_resize (g : TermGrid) (rows2 cols2 : Nat) (hwf : WF g)
    (hr : 0 < rows2) (hc : 0 < cols2) :
    (g.resize rows2 cols2).rows = rows2 ∧ (g.resize rows2 cols2).cols = cols2 ∧
    (g.resize rows2 cols2).cells.length = rows2 ∧
    (∀ row ∈ (g.resize rows2 cols2).cells, row.length = cols2) ∧
    (g.resize rows2 cols2).cursor_row = min g.cursor_row (rows2 - 1) ∧
    (g.resize rows2 cols2).cursor_col = min g.cursor_col (cols2 - 1) ∧
    (g.resize rows2 cols2).cursor_row < rows2 ∧
    (g.resize rows2 cols2).cursor_col < cols2 ∧
    (g.resize rows2 cols2).scroll_top = 0 ∧
    (g.resize rows2 cols2).scroll_bottom = rows2 - 1 ∧
    (∀ i j, i < rows2 → j < cols2 → i < g.rows → j < g.cols →
      cellAt (g.resize rows2 cols2) i j = cellAt g i j) ∧
    (∀ i j, i < rows2 → j < cols2 → g.rows ≤ i ∨ g.cols ≤ j →
      cellAt (g.resize rows2 cols2) i j = some TermCell.dfault) := by
  obtain ⟨hrows, hcols, hsh, hcr, hcc, hst, hsb⟩ := hwf
  obtain ⟨hwf2a, hwf2b, ⟨hlen2, hall2⟩, hcr2, hcc2, hst2, hsb2⟩ := resize_wf g rows2 cols2 hr hc
  have hcells : (g.resize rows2 cols2).cells =
      (listResize g.cells rows2 (blankRow cols2)).map
        (fun row => listResize row cols2 TermCell.dfault) := rfl
  refine ⟨rfl, rfl, hlen2, hall2, rfl, rfl, by show min g.cursor_row (rows2 - 1) < rows2; omega,
    by show min g.cursor_col (cols2 - 1) < cols2; omega, rfl, rfl, ?_, ?_⟩
  · intro i j hi hj hio hjo
    have hio2 : i < g.cells.length := by rw [hsh.1]; exact hio
    obtain ⟨row, hrow, hrlen⟩ := hsh.rowAt hio
    have hrow2 : g.cells[i] = row := by
      have h := List.getElem?_eq_getElem hio2
      rw [hrow] at h
      exact (Option.some_inj.mp h).symm
    unfold cellAt
    rw [hcells, List.getElem?_map, listResize_getElem _ _ _ hi, dif_pos hio2, hrow]
    simp only [Option.map_some', Option.some_bind]
    rw [hrow2, listResize_getElem _ _ _ hj,
      dif_pos (show j < row.length by rw [hrlen]; exact hjo),
      List.getElem?_eq_getElem (show j < row.length by rw [hrlen]; exact hjo)]
  · intro i j hi hj hor
    unfold cellAt
    rw [hcells, List.getElem?_map, listResize_getElem _ _ _ hi]
    rcases hor with hor | hor
    · rw [dif_neg (by rw [hsh.1]; omega)]
      simp only [Option.map_some', Option.some_bind]
      rw [listResize_getElem _ _ _ hj,
        dif_pos (show j < (blankRow cols2).length by rw [blankRow_length]; exact hj)]
      simp [blankRow]
    · by_cases hio : i < g.rows
      · obtain ⟨row, hrow, hrlen⟩ := hsh.rowAt hio
        have hio2 : i < g.cells.length := by rw [hsh.1]; exact hio
        have hrow2 : g.cells[i] = row := by
          have h := List.getElem?_eq_getElem hio2
          rw [hrow] at h
          exact (Option.some_inj.mp h).symm
        rw [dif_pos hio2]
        simp only [Option.map_some', Option.some_bind]
        rw [hrow2, listResize_getElem _ _ _ hj, dif_neg (by rw [hrlen]; omega)]
      · rw [dif_neg (by rw [hsh.1]; omega)]
        simp only [Option.map_some', Option.some_bind]
        rw [listResize_getElem _ _ _ hj,
          dif_pos (show j < (blankRow cols2).length by rw [blankRow_length]; exact hj)]
        simp [blankRow]

theorem claim_C7_resize_witness :
    ((TermGrid.new 24 80).resize 10 40).cursor_row < 10 ∧
    ((TermGrid.new 24 80).resize 10 40).cursor_col < 40 ∧
    ((TermGrid.new 24 80).resize 10 40).scroll_top = 0 ∧
    ((TermGrid.new 24 80).resize 10 40).scroll_bottom = 9 := by
  obtain ⟨_, _, _, _, _, _, h7, h8, h9, h10, _, _⟩ :=
    claim_C7_resize (TermGrid.new 24 80) 10 40 (by decide) (by decide) (by decide)
  exact ⟨h7, h8, h9, h10⟩

/-- Claim C8: every parsed event (print, execute, CSI dispatch with any
parameters and action, ESC dispatch, string events) applied to a grid
satisfying the shape invariant succeeds and preserves it (matrix exactly
`rows × cols`, `cursor_row < rows`, `cursor_col ≤ cols`), with
`cursor_col = cols` arising only as the transient state left by printing
in the last column; and `resize` to positive dimensions also preserves
the invariant. -/
theorem claim_C8_ops_preserve_invariant :
    (∀ (g : TermGrid) (ev : TermEvent), WF g →
      ∃ g2 out, applyEvent g ev = some (g2, out) ∧ WF g2 ∧
        (g.cursor_col < g.cols →
          (g2.cursor_col < g2.cols ∨
            ∃ c, ev = TermEvent.print c ∧ g.cursor_col + 1 = g.cols))) ∧
    (∀ (g : TermGrid) (rows2 cols2 : Nat), WF g → 0 < rows2 → 0 < cols2 →
      WF (g.resize rows2 cols2)) := by
  constructor
  · intro g ev hwf
    cases ev with
    | print c =>
      obtain ⟨g2, he, hw, hrowse, hcolse, hinc⟩ := print_spec g c hwf
      refine ⟨g2, [], by simp [applyEvent, he], hw, ?_⟩
      intro hlt
      by_cases hlast : g.cursor_col + 1 = g.cols
      · exact Or.inr ⟨c, rfl, hlast⟩
      · refine Or.inl ?_
        rw [hinc hlt, hcolse]
        omega
    | execute b =>
      obtain ⟨g2, he, hw, hrowse, hcolse, hdisj⟩ := execute_spec g b hwf
      refine ⟨g2, [], by simp [applyEvent, he], hw, fun hlt => Or.inl ?_⟩
      rcases hdisj with hle | hlt2
      · rw [hcolse]; omega
      · exact hlt2
    | csi params interQ action =>
      obtain ⟨g2, out, he, hw, hrowse, hcolse, hdisj⟩ :=
        csi_dispatch_wf g params interQ action hwf
      refine ⟨g2, out, he, hw, fun hlt => Or.inl ?_⟩
      rcases hdisj with hle | hlt2
      · rw [hcolse]; omega
      · exact hlt2
    | esc b =>
      obtain ⟨g2, he, hw, hrowse, hcolse, hcoleq⟩ := esc_dispatch_spec g b hwf
      refine ⟨g2, [], by simp [applyEvent, he], hw, fun hlt => Or.inl ?_⟩
      rw [hcoleq, hcolse]
      exact hlt
    | strEvent => exact ⟨g, [], rfl, hwf, fun hlt => Or.inl hlt⟩
  · intro g rows2 cols2 _ hr hc
    exact resize_wf g rows2 cols2 hr hc

theorem claim_C8_ops_preserve_invariant_witness :
    WF ((TermGrid.new 4 4).resize 2 3) ∧
    (∃ g2 out, applyEvent (TermGrid.new 4 4) (TermEvent.execute 10) = some (g2, out) ∧
      WF g2) := by
  constructor
  · exact claim_C8_ops_preserve_invariant.2 (TermGrid.new 4 4) 2 3
      (by decide) (by decide) (by decide)
  · obtain ⟨g2, out, he, hw, _⟩ := claim_C8_ops_preserve_invariant.1 (TermGrid.new 4 4)
      (TermEvent.execute 10) (by decide)
    exact ⟨g2, out, he, hw⟩

/-- Claim C9: the key-event encoding is a pure function of key and
modifiers: Enter ↦ CR, Backspace ↦ DEL (0x7F), Tab ↦ HT, Escape ↦ ESC,
arrows ↦ `ESC [ A/B/C/D`, Home/End ↦ `ESC [ H` / `ESC [ F`,
Delete ↦ `ESC [ 3 ~`, PageUp/PageDown ↦ `ESC [ 5 ~` / `ESC [ 6 ~` — all
independently of every modifier (in particular ArrowUp is always exactly
`ESC [ A`); without Control, character keys pass through as their UTF-8
bytes; with Control, a letter key produces the single control byte
`letter - 'a' + 1`. -/
theorem claim_C9_key_encoding :
    (∀ m : Modifiers,
      handle_key_event TermKey.enter m = some [13] ∧
      handle_key_event TermKey.backspace m = some [127] ∧
      handle_key_event TermKey.tab m = some [9] ∧
      handle_key_event TermKey.escape m = some [27] ∧
      handle_key_event TermKey.arrowUp m = some [27, 91, 65] ∧
      handle_key_event TermKey.arrowDown m = some [27, 91, 66] ∧
      handle_key_event TermKey.arrowRight m = some [27, 91, 67] ∧
      handle_key_event TermKey.arrowLeft m = some [27, 91, 68] ∧
      handle_key_event TermKey.home m = some [27, 91, 72] ∧
      handle_key_event TermKey.endKey m = some [27, 91, 70] ∧
      handle_key_event TermKey.delete m = some [27, 91, 51, 126] ∧
      handle_key_event TermKey.pageUp m = some [27, 91, 53, 126] ∧
      handle_key_event TermKey.pageDown m = some [27, 91, 54, 126]) ∧
    (∀ (m : Modifiers) (s : String), m.control = false →
      handle_key_event (TermKey.character s) m = some (utf8 s)) ∧
    (∀ (m : Modifiers) (s : String) (c : Char), m.control = true →
      s.toList.headD (Char.ofNat 0) = c → 'a' ≤ c → c ≤ 'z' →
      handle_key_event (TermKey.character s) m = some [c.toNat - 'a'.toNat + 1]) := by
  refine ⟨fun m => ?_, fun m s hm => ?_, fun m s c hm hh h1 h2 => ?_⟩
  · cases hm : m.control <;>
      simp [handle_key_event, keyBytes, hm]
  · simp [handle_key_event, hm, keyBytes]
  · simp at hh
    simp [handle_key_event, hm, ctrlLetterBytes, hh, h1, h2]

theorem claim_C9_key_encoding_witness :
    handle_key_event TermKey.arrowUp ⟨true, true, true, true⟩ = some [27, 91, 65] ∧
    handle_key_event (TermKey.character ("x")) ⟨true, false, true, true⟩ =
      some (utf8 ("x")) ∧
    handle_key_event (TermKey.character ("q")) ⟨false, true, false, false⟩ = some [17] := by
  refine ⟨(claim_C9_key_encoding.1 ⟨true, true, true, true⟩).2.2.2.2.1, ?_, ?_⟩
  · exact claim_C9_key_encoding.2.1 ⟨true, false, true, true⟩ ("x") rfl
  · exact claim_C9_key_encoding.2.2 ⟨false, true, false, false⟩ ("q") 'q' rfl (by decide)
      (by decide) (by decide)

/-- Claim C10: in `apply_sgr`, code 38 (or 48) followed by a parameter
other than 5 leaves the current foreground (resp. background) unchanged,
consumes exactly that one parameter, and the remaining parameters are
interpreted as independent SGR codes; so a truecolor sequence
`38;2;R;G;B` feeds `R`, `G`, `B` back into the dispatcher — in
particular a component equal to 0 resets all attributes and a component
equal to 49 resets the background. -/
theorem claim_C10_sgr_extended_skip (g : TermGrid) (x : Nat) (rest : List Nat)
    (hx : x ≠ 5) :
    g.apply_sgr (38 :: x :: rest) = g.apply_sgr rest ∧
    g.apply_sgr (48 :: x :: rest) = g.apply_sgr rest ∧
    g.apply_sgr (38 :: 2 :: 0 :: rest) = g.sgr_reset.apply_sgr rest ∧
    g.apply_sgr (48 :: 2 :: 49 :: rest) =
      TermGrid.apply_sgr { g with current_bg := none } rest := by
  refine ⟨?_, ?_, ?_, ?_⟩
  · conv_lhs => rw [TermGrid.apply_sgr.eq_def]
    simp [hx]
  · conv_lhs => rw [TermGrid.apply_sgr.eq_def]
    simp [hx]
  · conv_lhs => rw [TermGrid.apply_sgr.eq_def]
    simp
    conv_lhs => rw [TermGrid.apply_sgr.eq_def]
    simp
  · conv_lhs => rw [TermGrid.apply_sgr.eq_def]
    simp
    conv_lhs => rw [TermGrid.apply_sgr.eq_def]
    simp

theorem claim_C10_sgr_extended_skip_witness :
    (TermGrid.new 2 2).apply_sgr [38, 2, 255, 100, 49] =
      (TermGrid.new 2 2).apply_sgr [255, 100, 49] ∧
    (TermGrid.new 2 2).apply_sgr [48, 2, 255, 100, 49] =
      (TermGrid.new 2 2).apply_sgr [255, 100, 49] :=
  ⟨(claim_C10_sgr_extended_skip (TermGrid.new 2 2) 2 [255, 100, 49] (by decide)).1,
   (claim_C10_sgr_extended_skip (TermGrid.new 2 2) 2 [255, 100, 49] (by decide)).2.1⟩
